import Mathlib

/-
Verification of the agent-response parsing, normalization, retry and
repository-coordinate machinery of the step-pipeline repository.

The JavaScript/TypeScript sources are shallowly embedded as executable Lean
definitions: strings are lists of characters, JSON values are an inductive
type, thrown exceptions become `Except` errors, and the effectful retry loop
becomes a pure trace (result, invoked attempt indices, emitted notifications).
-/

namespace AgentQA

/-- Characters matched by the JavaScript regular-expression class `\s`
(also the set removed by `String.prototype.trim`). -/
def jsWs (c : Char) : Bool :=
  c == ' ' || c == '\t' || c == '\n' || c == '\r' ||
  c == Char.ofNat 11 || c == Char.ofNat 12 || c == Char.ofNat 160 ||
  c == Char.ofNat 0x1680 || (0x2000 ≤ c.toNat && c.toNat ≤ 0x200a) ||
  c == Char.ofNat 0x2028 || c == Char.ofNat 0x2029 || c == Char.ofNat 0x202f ||
  c == Char.ofNat 0x205f || c == Char.ofNat 0x3000 || c == Char.ofNat 0xfeff

/-- Remove trailing JavaScript whitespace from a character list. -/
def dropTrailingWsL (l : List Char) : List Char :=
  (l.reverse.dropWhile jsWs).reverse

/-- JavaScript `String.prototype.trim` on a character list. -/
def jsTrimL (l : List Char) : List Char :=
  dropTrailingWsL (l.dropWhile jsWs)

/-- JavaScript `String.prototype.trim`. -/
def jsTrim (s : String) : String :=
  String.mk (jsTrimL s.data)

/-- JavaScript `String.prototype.includes` for a single character. -/
def hasChar (c : Char) (l : List Char) : Bool :=
  l.contains c

/-- Scan for `needle` as a contiguous sublist (JavaScript `includes`). -/
def hasSub (needle : List Char) : List Char → Bool
  | [] => needle.isEmpty
  | c :: rest => needle.isPrefixOf (c :: rest) || hasSub needle rest

/-- JavaScript `String.prototype.includes`. -/
def strIncludes (needle s : String) : Bool :=
  hasSub needle.data s.data

/-- JavaScript `String.prototype.toLowerCase` (modelled with Lean's
character lower-casing). -/
def jsLowerL (l : List Char) : List Char :=
  l.map Char.toLower

-- ===========================================================================
-- JSON values
-- ===========================================================================

/-- JSON values (the results of the JavaScript `JSON.parse` builtin).
Arrays and objects are flattened into the inductive so that decidable
equality can be derived; `mkArr` / `mkObj` and `asList` / `asFields`
mediate with ordinary lists.  Numbers are kept exactly as
mantissa/exponent pairs (value = m * 10 ^ e). -/
inductive Json where
  | null : Json
  | bool (b : Bool) : Json
  | num (m : Int) (e : Int) : Json
  | str (s : String) : Json
  | arrNil : Json
  | arrCons (hd : Json) (tl : Json) : Json
  | objNil : Json
  | objCons (key : String) (val : Json) (tl : Json) : Json
deriving DecidableEq, Repr

/-- Build a JSON array from a list of values. -/
def Json.mkArr (l : List Json) : Json :=
  l.foldr Json.arrCons Json.arrNil

/-- Build a JSON object from a key/value list. -/
def Json.mkObj (l : List (String × Json)) : Json :=
  l.foldr (fun kv t => Json.objCons kv.1 kv.2 t) Json.objNil

/-- View a JSON value as an array; `none` when it is not an array. -/
def Json.asList : Json → Option (List Json)
  | .arrNil => some []
  | .arrCons hd tl => (Json.asList tl).map (hd :: ·)
  | _ => none

/-- View a JSON value as an object's key/value list; `none` otherwise. -/
def Json.asFields : Json → Option (List (String × Json))
  | .objNil => some []
  | .objCons k v tl => (Json.asFields tl).map ((k, v) :: ·)
  | _ => none

/-- JavaScript property read `j[k]`; `undefined` is `none`. -/
def Json.getF (j : Json) (k : String) : Option Json :=
  (j.asFields.getD []).lookup k

/-- Replace the first binding of `k` in a key/value list, keeping its
position, or append the binding (JavaScript property assignment order). -/
def putField (k : String) (v : Json) : List (String × Json) → List (String × Json)
  | [] => [(k, v)]
  | (k', v') :: rest =>
      if k' = k then (k', v) :: rest else (k', v') :: putField k v rest

/-- JavaScript property assignment `j[k] = v` on an object (identity on
values that cannot carry JSON-visible properties). -/
def Json.setF (j : Json) (k : String) (v : Json) : Json :=
  match j.asFields with
  | some fs => Json.mkObj (putField k v fs)
  | none => j

/-- JavaScript truthiness of a JSON value. -/
def jsTruthy : Json → Bool
  | .null => false
  | .bool b => b
  | .num m _ => m != 0
  | .str s => s ≠ ""
  | _ => true

/-- JavaScript truthiness of a possibly-`undefined` JSON value. -/
def jsTruthyOpt : Option Json → Bool
  | some v => jsTruthy v
  | none => false

/-- Decimal rendering of a mantissa/exponent number (models JavaScript
number-to-string conversion on the simple values the sources produce). -/
def numToString (m : Int) (e : Int) : String :=
  match e with
  | .ofNat n => toString m ++ String.mk (List.replicate n '0')
  | .negSucc n => toString m ++ "e-" ++ toString (n + 1)

/-- JavaScript `String(v)` coercion. -/
def jsToString : Json → String
  | .null => "null"
  | .bool b => if b then "true" else "false"
  | .num m e => numToString m e
  | .str s => s
  | .arrNil => ""
  | .arrCons hd tl =>
      (match hd with
       | .null => ""
       | v => jsToString v) ++
      (match tl with
       | .arrNil => ""
       | t => "," ++ jsToString t)
  | .objNil => "[object Object]"
  | .objCons _ _ _ => "[object Object]"

-- ===========================================================================
-- JSON.parse (modelled as a fuel-driven recursive-descent routine)
-- ===========================================================================

/-- Hex digit value, if any. -/
def hexVal (c : Char) : Option Nat :=
  if '0' ≤ c ∧ c ≤ '9' then some (c.toNat - '0'.toNat)
  else if 'a' ≤ c ∧ c ≤ 'f' then some (c.toNat - 'a'.toNat + 10)
  else if 'A' ≤ c ∧ c ≤ 'F' then some (c.toNat - 'A'.toNat + 10)
  else none

/-- Simple-escape decoding for JSON string literals. -/
def escChar (e : Char) : Option Char :=
  if e = '"' then some '"' else if e = '\\' then some '\\'
  else if e = '/' then some '/' else if e = 'b' then some (Char.ofNat 8)
  else if e = 'f' then some (Char.ofNat 12) else if e = 'n' then some '\n'
  else if e = 'r' then some '\r' else if e = 't' then some '\t' else none

/-- Decode a JSON string literal body (after the opening quote), returning
the decoded text and the input following the closing quote. -/
def lexStr : List Char → Except String (List Char × List Char)
  | [] => .error "Unterminated string in JSON"
  | '"' :: rest => .ok ([], rest)
  | '\\' :: 'u' :: a :: b :: c :: d :: rest =>
      (match hexVal a, hexVal b, hexVal c, hexVal d with
       | some x, some y, some z, some w =>
           (lexStr rest).map (fun p => (Char.ofNat (((x * 16 + y) * 16 + z) * 16 + w) :: p.1, p.2))
       | _, _, _, _ => .error "Bad Unicode escape in JSON")
  | '\\' :: e :: rest =>
      (match escChar e with
       | some c => (lexStr rest).map (fun p => (c :: p.1, p.2))
       | none => .error "Bad escape in JSON")
  | '\\' :: [] => .error "Unterminated string in JSON"
  | c :: rest => (lexStr rest).map (fun p => (c :: p.1, p.2))

/-- Digit test. -/
def isDig (c : Char) : Bool := '0' ≤ c && c ≤ '9'

/-- Read a digit run as a natural number. -/
def digitsVal (l : List Char) : Nat :=
  l.foldl (fun acc c => acc * 10 + (c.toNat - '0'.toNat)) 0

/-- Lex a JSON number (sign, integer part, optional fraction and exponent),
returning mantissa/exponent and the rest of the input. -/
def lexNum (l : List Char) : Except String ((Int × Int) × List Char) :=
  let (sgn, l1) : Int × List Char := match l with
    | '-' :: rest => (-1, rest)
    | _ => (1, l)
  let ip := l1.takeWhile isDig
  if ip.isEmpty then .error "Bad number in JSON" else
  let l2 := l1.drop ip.length
  let (fp, l3) : List Char × List Char := match l2 with
    | '.' :: rest => (rest.takeWhile isDig, rest.drop (rest.takeWhile isDig).length)
    | _ => ([], l2)
  if l2 ≠ l3 ∧ fp.isEmpty then .error "Bad number in JSON" else
  let (hasExp, l4) : Bool × List Char := match l3 with
    | 'e' :: rest => (true, rest)
    | 'E' :: rest => (true, rest)
    | _ => (false, l3)
  let (esgn, l5) : Int × List Char := match l4 with
    | '+' :: rest => (1, rest)
    | '-' :: rest => (-1, rest)
    | _ => (1, l4)
  let ed := l5.takeWhile isDig
  if hasExp ∧ ed.isEmpty then .error "Bad number in JSON" else
  let l6 := l5.drop ed.length
  let mant : Int := sgn * (digitsVal ip * 10 ^ fp.length + digitsVal fp)
  let expo : Int := (if hasExp then esgn * digitsVal ed else 0) - fp.length
  .ok ((mant, expo), if hasExp then l6 else l3)

mutual

/-- Parse one JSON value; `fuel` bounds the recursion depth. -/
def pVal : Nat → List Char → Except String (Json × List Char)
  | 0, _ => .error "Out of fuel"
  | fuel + 1, l =>
    match l.dropWhile jsWs with
    | [] => .error "Unexpected end of JSON input"
    | c :: rest =>
      if c = 'n' then
        if ['u', 'l', 'l'].isPrefixOf rest then .ok (.null, rest.drop 3)
        else .error "Unexpected token in JSON"
      else if c = 't' then
        if ['r', 'u', 'e'].isPrefixOf rest then .ok (.bool true, rest.drop 3)
        else .error "Unexpected token in JSON"
      else if c = 'f' then
        if ['a', 'l', 's', 'e'].isPrefixOf rest then .ok (.bool false, rest.drop 4)
        else .error "Unexpected token in JSON"
      else if c = '"' then
        (lexStr rest).map (fun p => (.str (String.mk p.1), p.2))
      else if c = '[' then
        match rest.dropWhile jsWs with
        | ']' :: rest2 => .ok (.arrNil, rest2)
        | _ => pElems fuel rest
      else if c = Char.ofNat 123 then
        match rest.dropWhile jsWs with
        | c2 :: rest2 =>
          if c2 = Char.ofNat 125 then .ok (.objNil, rest2)
          else pMembers fuel rest
        | [] => .error "Unexpected end of JSON input"
      else if c = '-' ∨ isDig c then
        (lexNum (c :: rest)).map (fun p => (.num p.1.1 p.1.2, p.2))
      else .error "Unexpected token in JSON"

/-- Parse the elements of a non-empty JSON array (after `[`). -/
def pElems : Nat → List Char → Except String (Json × List Char)
  | 0, _ => .error "Out of fuel"
  | fuel + 1, l =>
    match pVal fuel l with
    | .error e => .error e
    | .ok (v, rest) =>
      match rest.dropWhile jsWs with
      | ',' :: rest2 =>
        match pElems fuel rest2 with
        | .ok (tl, rest3) => .ok (.arrCons v tl, rest3)
        | .error e => .error e
      | ']' :: rest2 => .ok (.arrCons v .arrNil, rest2)
      | _ => .error "Expected comma or bracket in JSON array"

/-- Parse the members of a non-empty JSON object (after the opening
brace); a duplicated key keeps its first position but the last value. -/
def pMembers : Nat → List Char → Except String (Json × List Char)
  | 0, _ => .error "Out of fuel"
  | fuel + 1, l =>
    match l.dropWhile jsWs with
    | '"' :: rest =>
      match lexStr rest with
      | .error e => .error e
      | .ok (k, rest2) =>
        match rest2.dropWhile jsWs with
        | ':' :: rest3 =>
          match pVal fuel rest3 with
          | .error e => .error e
          | .ok (v, rest4) =>
            match rest4.dropWhile jsWs with
            | ',' :: rest5 =>
              match pMembers fuel rest5 with
              | .ok (tl, rest6) =>
                let fs := tl.asFields.getD []
                let key := String.mk k
                (match fs.lookup key with
                 | some v' =>
                     .ok (Json.mkObj ((key, v') :: fs.eraseP (fun kv => kv.1 == key)), rest6)
                 | none => .ok (Json.mkObj ((key, v) :: fs), rest6))
              | .error e => .error e
            | c :: rest5 =>
              if c = Char.ofNat 125 then
                .ok (.objCons (String.mk k) v .objNil, rest5)
              else .error "Expected comma or brace in JSON object"
            | [] => .error "Expected comma or brace in JSON object"
        | _ => .error "Expected colon in JSON object"
    | _ => .error "Expected string key in JSON object"

end

/-- The JavaScript builtin `JSON.parse`. -/
def jsonParse (s : String) : Except String Json :=
  match pVal (s.data.length + 1) s.data with
  | .error e => .error e
  | .ok (v, rest) =>
    if (rest.dropWhile jsWs).isEmpty then .ok v
    else .error "Unexpected non-whitespace character after JSON"

/-- Success test for `Except`. -/
def isOkE {ε α : Type} : Except ε α → Bool
  | .ok _ => true
  | .error _ => false

-- ===========================================================================
-- extractJsonFromText (source: types/agent module)
-- ===========================================================================

/-- Three-backtick code-fence delimiter. -/
def ticks : List Char := "```".data

/-- Split a character list at the first occurrence of a code-fence
delimiter: returns the text before it and the text after it. -/
def splitAtTicks : List Char → Option (List Char × List Char)
  | [] => none
  | c :: rest =>
    if ticks.isPrefixOf (c :: rest) then some ([], (c :: rest).drop 3)
    else
      match splitAtTicks rest with
      | some (b, a) => some (c :: b, a)
      | none => none

/-- Match the tail of the fence pattern (greedy whitespace, the lazy
capture group, trailing whitespace, closing fence) against the text that
follows an opening fence, returning the captured group. -/
def fenceTail (r : List Char) : Option (List Char) :=
  match splitAtTicks (r.dropWhile jsWs) with
  | some (body, _) => some (dropTrailingWsL body)
  | none => none

/-- Match the fence regular expression at the start of the text: an
opening fence, an optional `json` tag (tried first, as the regex engine
does), then `fenceTail`. -/
def fenceAt (s : List Char) : Option (List Char) :=
  if ticks.isPrefixOf s then
    let rest := s.drop 3
    match (if "json".data.isPrefixOf rest then fenceTail (rest.drop 4) else none) with
    | some cap => some cap
    | none => fenceTail rest
  else none

/-- Leftmost match of the fence regular expression
(JavaScript `text.match` scanning start positions left to right). -/
def fenceSearch : List Char → Option (List Char)
  | [] => none
  | c :: rest =>
    match fenceAt (c :: rest) with
    | some cap => some cap
    | none => fenceSearch rest

/-- Index of the first occurrence of a character (JavaScript `indexOf`,
with `none` for -1). -/
def firstIdxOf (c : Char) (l : List Char) : Option Nat :=
  l.findIdx? (· == c)

/-- Index of the last occurrence of a character (JavaScript `lastIndexOf`,
with `none` for -1). -/
def lastIdxOf (c : Char) (l : List Char) : Option Nat :=
  match l.reverse.findIdx? (· == c) with
  | some i => some (l.length - 1 - i)
  | none => none

/-- The brace-boundary branch: the substring from the first opening brace
to the last closing brace, when the latter comes after the former. -/
def extractBraces (l : List Char) : Option (List Char) :=
  match firstIdxOf (Char.ofNat 123) l, lastIdxOf (Char.ofNat 125) l with
  | some s, some e => if s < e then some ((l.drop s).take (e + 1 - s)) else none
  | _, _ => none

/-- Greedy braced capture group at the start of the text: an opening
brace here, extending to the last closing brace of the text. -/
def braceCapture (t : List Char) : Option (List Char) :=
  match t with
  | c :: _ =>
    if c = Char.ofNat 123 then
      match lastIdxOf (Char.ofNat 125) t with
      | some q => if 1 ≤ q then some (t.take (q + 1)) else none
      | none => none
    else none
  | [] => none

/-- Case-insensitive literal test at the start of the text (the pattern
is given lower-cased). -/
def ciStarts (pat : List Char) (l : List Char) : Bool :=
  pat.isPrefixOf ((l.take pat.length).map Char.toLower)

/-- Skip one leading colon or dash (the optional `[:\\x2d]?` element of
the first fallback pattern). -/
def skipColonDash : List Char → List Char
  | [] => []
  | c :: r => if c = ':' ∨ c = '-' then r else c :: r

/-- After an alternation word of the first fallback pattern: optional
whitespace, optional `json` tag, optional colon or dash, optional
whitespace, then a braced capture.  Each optional element is forced, so
the greedy cascade is exact. -/
def pat1After (t : List Char) : Option (List Char) :=
  let t2 := t.dropWhile jsWs
  let t3 := if ciStarts "json".data t2 then t2.drop 4 else t2
  braceCapture ((skipColonDash (t3.dropWhile jsWs)).dropWhile jsWs)

/-- The introductory words of the first fallback pattern, lower-cased. -/
def pat1Words : List (List Char) :=
  ["here\x27s the".data, "here is the".data, "the".data, "result:".data, "output:".data]

/-- Match the first fallback pattern at the start of the text. -/
def pat1At (l : List Char) : Option (List Char) :=
  (pat1Words.filterMap (fun w =>
    if ciStarts w l then pat1After (l.drop w.length) else none)).head?

/-- Leftmost match of the first fallback pattern. -/
def pat1Search : List Char → Option (List Char)
  | [] => none
  | c :: rest =>
    match pat1At (c :: rest) with
    | some cap => some cap
    | none => pat1Search rest

/-- Match the second fallback pattern (optionally fenced braced block) at
the start of the text. -/
def pat2At (l : List Char) : Option (List Char) :=
  match (if ticks.isPrefixOf l then braceCapture ((l.drop 3).dropWhile jsWs) else none) with
  | some cap => some cap
  | none => braceCapture l

/-- Leftmost match of the second fallback pattern. -/
def pat2Search : List Char → Option (List Char)
  | [] => none
  | c :: rest =>
    match pat2At (c :: rest) with
    | some cap => some cap
    | none => pat2Search rest

/-- Match the third fallback pattern (`JSON:` tag, case-insensitive,
then a braced block) at the start of the text. -/
def pat3At (l : List Char) : Option (List Char) :=
  if ciStarts "json:".data l then braceCapture ((l.drop 5).dropWhile jsWs) else none

/-- Leftmost match of the third fallback pattern. -/
def pat3Search : List Char → Option (List Char)
  | [] => none
  | c :: rest =>
    match pat3At (c :: rest) with
    | some cap => some cap
    | none => pat3Search rest

/-- Guard of the fallback loop: a non-empty capture whose trimmed length
exceeds 10, returned trimmed. -/
def goodCap : Option (List Char) → Option (List Char)
  | some m => if !m.isEmpty && decide (10 < (jsTrimL m).length) then some (jsTrimL m) else none
  | none => none

/-- The fallback-pattern loop of `extractJsonFromText`. -/
def patsLoop (l : List Char) : Option (List Char) :=
  match goodCap (pat1Search l) with
  | some m => some m
  | none =>
    match goodCap (pat2Search l) with
    | some m => some m
    | none => goodCap (pat3Search l)

/-- The part of `extractJsonFromText` after the fence branch has been
passed over: brace boundaries, then the fallback patterns, then the
original text. -/
def extractAfterFence (l : List Char) : List Char :=
  match extractBraces l with
  | some sub => sub
  | none =>
    match patsLoop l with
    | some m => m
    | none => l

/-- Source function `extractJsonFromText`: extracts JSON from agent
response text (markdown code fences, brace boundaries, fallback
patterns, else the text itself). -/
def extractJsonFromText (t : String) : String :=
  match fenceSearch t.data with
  | some cap =>
    if 10 < (jsTrimL cap).length then String.mk (jsTrimL cap)
    else String.mk (extractAfterFence t.data)
  | none => String.mk (extractAfterFence t.data)

-- ===========================================================================
-- attemptJsonRecovery (source: types/agent module)
-- ===========================================================================

/-- Does the text begin, after optional whitespace, with a closing brace
or bracket?  This is the context in which the trailing-comma regex
deletes a comma. -/
def closingNext (l : List Char) : Bool :=
  match l.dropWhile jsWs with
  | c :: _ => c = Char.ofNat 125 || c = ']'
  | [] => false

/-- The global trailing-comma replacement
(`recovered.replace` of comma-before-closing by the closing). -/
def stripCommas : List Char → List Char
  | [] => []
  | c :: rest =>
    if c == ',' && closingNext rest then stripCommas rest
    else c :: stripCommas rest

/-- Source function `attemptJsonRecovery`: drop commas that immediately
precede a closing brace or bracket, then append the number of closing
braces needed to balance the opening-brace count. -/
def attemptJsonRecovery (s : String) : String :=
  let recovered := stripCommas s.data
  let openBraces := recovered.count (Char.ofNat 123)
  let closeBraces := recovered.count (Char.ofNat 125)
  if closeBraces < openBraces then
    String.mk (recovered ++ List.replicate (openBraces - closeBraces) (Char.ofNat 125))
  else String.mk recovered

-- ===========================================================================
-- parseAgentJsonResponse (source: types/agent module)
-- ===========================================================================

/-- The extraction-quality gate of `parseAgentJsonResponse`: the
extracted text is too short, is the placeholder, or has no opening
brace. -/
def gateBad (j : String) : Bool :=
  j.data.length < 10 || j == "..." || !(j.data.contains (Char.ofNat 123))

/-- The message of the extraction-quality error thrown by
`parseAgentJsonResponse`. -/
def gateErrMsg (text : String) : String :=
  "Failed to extract valid JSON from agent response. Preview: " ++
    String.mk (text.data.take 500) ++ "..."

/-- Source function `parseAgentJsonResponse`: extract, gate, JSON-parse
and schema-validate, with one optional recovery pass.  The target schema
is the zod `schema.parse` callback; thrown errors are their message
strings. -/
def parseAgentJsonResponse {α : Type} (text : String)
    (schemaParse : Json → Except String α) (attemptRecovery : Bool) :
    Except String α :=
  let jsonText := extractJsonFromText text
  if gateBad jsonText then
    .error (gateErrMsg text)
  else
    match (jsonParse jsonText).bind schemaParse with
    | .ok v => .ok v
    | .error parseError =>
      if !attemptRecovery then .error parseError
      else
        match (jsonParse (attemptJsonRecovery jsonText)).bind schemaParse with
        | .ok v => .ok v
        | .error _ =>
          .error ("JSON parsing failed after recovery attempt. Original: " ++ parseError)

-- ===========================================================================
-- Repository-analysis schemas (source: types/repository-analysis module)
-- ===========================================================================

/-- JSON numbers as stored by the embedding (mantissa, base-10 exponent). -/
abbrev JsNum := Int × Int

/-- zod `z.string()`. -/
def zString : Json → Except String String
  | .str s => .ok s
  | _ => .error "Expected string"

/-- zod `z.boolean()`. -/
def zBool : Json → Except String Bool
  | .bool b => .ok b
  | _ => .error "Expected boolean"

/-- zod `z.number()`. -/
def zNum : Json → Except String JsNum
  | .num m e => .ok (m, e)
  | _ => .error "Expected number"

/-- zod `z.string().nullable()`. -/
def zStringNullable : Json → Except String (Option String)
  | .str s => .ok (some s)
  | .null => .ok none
  | _ => .error "Expected string or null"

/-- Parse each element of a list. -/
def zListGo {α : Type} (p : Json → Except String α) : List Json → Except String (List α)
  | [] => .ok []
  | j :: rest => do
    let a ← p j
    let tl ← zListGo p rest
    .ok (a :: tl)

/-- zod `z.array(...)`. -/
def zList {α : Type} (p : Json → Except String α) (j : Json) : Except String (List α) :=
  match j.asList with
  | some items => zListGo p items
  | none => .error "Expected array"

/-- Parse each value of a key/value list as a string. -/
def zStrMapGo : List (String × Json) → Except String (List (String × String))
  | [] => .ok []
  | (k, v) :: rest => do
    let s ← zString v
    let tl ← zStrMapGo rest
    .ok ((k, s) :: tl)

/-- zod `z.record(z.string())`. -/
def zStrMap (j : Json) : Except String (List (String × String)) :=
  match j.asFields with
  | some fs => zStrMapGo fs
  | none => .error "Expected record"

/-- A required object field (zod objects reject `undefined` fields). -/
def reqField {α : Type} (fs : List (String × Json)) (k : String)
    (p : Json → Except String α) : Except String α :=
  match fs.lookup k with
  | some v => p v
  | none => .error ("Required: " ++ k)

/-- The `PackageTypeSchema` enumeration. -/
inductive PackageTy where
  | app | library | tool | config | unknown
deriving DecidableEq, Repr

/-- Canonical string of a package type. -/
def PackageTy.toStr : PackageTy → String
  | .app => "app"
  | .library => "library"
  | .tool => "tool"
  | .config => "config"
  | .unknown => "unknown"

/-- zod parse for `PackageTypeSchema`. -/
def parsePackageTy : Json → Except String PackageTy
  | .str "app" => .ok .app
  | .str "library" => .ok .library
  | .str "tool" => .ok .tool
  | .str "config" => .ok .config
  | .str "unknown" => .ok .unknown
  | _ => .error "Invalid enum value for package type"

/-- The `RepositoryTypeSchema` enumeration. -/
inductive RepoTy where
  | monorepo | singlePackage | multiProject
deriving DecidableEq, Repr

/-- Canonical string of a repository type. -/
def RepoTy.toStr : RepoTy → String
  | .monorepo => "monorepo"
  | .singlePackage => "single-package"
  | .multiProject => "multi-project"

/-- zod parse for `RepositoryTypeSchema`. -/
def parseRepoTy : Json → Except String RepoTy
  | .str "monorepo" => .ok .monorepo
  | .str "single-package" => .ok .singlePackage
  | .str "multi-project" => .ok .multiProject
  | _ => .error "Invalid enum value for repository type"

/-- The `CodeCommentsLevelSchema` enumeration. -/
inductive CommentsLevel where
  | extensive | moderate | minimal | nothing
deriving DecidableEq, Repr

/-- Canonical string of a comments level (`nothing` renders the source
value `"none"`). -/
def CommentsLevel.toStr : CommentsLevel → String
  | .extensive => "extensive"
  | .moderate => "moderate"
  | .minimal => "minimal"
  | .nothing => "none"

/-- zod parse for `CodeCommentsLevelSchema`. -/
def parseCommentsLevel : Json → Except String CommentsLevel
  | .str "extensive" => .ok .extensive
  | .str "moderate" => .ok .moderate
  | .str "minimal" => .ok .minimal
  | .str "none" => .ok .nothing
  | _ => .error "Invalid enum value for comments level"

/-- `GitStatusSchema`. -/
structure GitStatus where
  isGitRepo : Bool
  defaultBranch : Option String
  lastCommit : Option String
  hasRemote : Bool
  isDirty : Bool
deriving DecidableEq, Repr

/-- zod parse for `GitStatusSchema`. -/
def parseGitStatus (j : Json) : Except String GitStatus :=
  match j.asFields with
  | some fs => do
    let a ← reqField fs "isGitRepo" zBool
    let b ← reqField fs "defaultBranch" zStringNullable
    let c ← reqField fs "lastCommit" zStringNullable
    let d ← reqField fs "hasRemote" zBool
    let e ← reqField fs "isDirty" zBool
    .ok ⟨a, b, c, d, e⟩
  | none => .error "Expected object"

/-- Encoding of an optional string (canonical JSON of a nullable field). -/
def encOptStr : Option String → Json
  | some s => .str s
  | none => .null

/-- Canonical JSON of a `GitStatus`. -/
def GitStatus.toJ (g : GitStatus) : Json :=
  Json.mkObj [("isGitRepo", .bool g.isGitRepo), ("defaultBranch", encOptStr g.defaultBranch),
    ("lastCommit", encOptStr g.lastCommit), ("hasRemote", .bool g.hasRemote),
    ("isDirty", .bool g.isDirty)]

/-- `PackageInfoSchema`. -/
structure PackageInfo where
  path : String
  name : Option String
  type : PackageTy
  language : Option String
deriving DecidableEq, Repr

/-- zod parse for `PackageInfoSchema`. -/
def parsePackageInfo (j : Json) : Except String PackageInfo :=
  match j.asFields with
  | some fs => do
    let a ← reqField fs "path" zString
    let b ← reqField fs "name" zStringNullable
    let c ← reqField fs "type" parsePackageTy
    let d ← reqField fs "language" zStringNullable
    .ok ⟨a, b, c, d⟩
  | none => .error "Expected object"

/-- Canonical JSON of a `PackageInfo`. -/
def PackageInfo.toJ (p : PackageInfo) : Json :=
  Json.mkObj [("path", .str p.path), ("name", encOptStr p.name),
    ("type", .str p.type.toStr), ("language", encOptStr p.language)]

/-- `RepoStructureSchema` (field `struct` embeds the source field named
`structure`, which is a Lean keyword). -/
structure RepoStructure where
  packages : List PackageInfo
  keyDirectories : List String
  ignoredPaths : List String
deriving DecidableEq, Repr

/-- zod parse for `RepoStructureSchema`. -/
def parseRepoStructure (j : Json) : Except String RepoStructure :=
  match j.asFields with
  | some fs => do
    let a ← reqField fs "packages" (zList parsePackageInfo)
    let b ← reqField fs "keyDirectories" (zList zString)
    let c ← reqField fs "ignoredPaths" (zList zString)
    .ok ⟨a, b, c⟩
  | none => .error "Expected object"

/-- Canonical JSON of a `RepoStructure`. -/
def RepoStructure.toJ (r : RepoStructure) : Json :=
  Json.mkObj [("packages", Json.mkArr (r.packages.map PackageInfo.toJ)),
    ("keyDirectories", Json.mkArr (r.keyDirectories.map Json.str)),
    ("ignoredPaths", Json.mkArr (r.ignoredPaths.map Json.str))]

/-- `LanguageStatsSchema`. -/
structure LanguageStats where
  language : String
  percentage : JsNum
  fileCount : JsNum
  mainFiles : List String
deriving DecidableEq, Repr

/-- zod parse for `LanguageStatsSchema`. -/
def parseLanguageStats (j : Json) : Except String LanguageStats :=
  match j.asFields with
  | some fs => do
    let a ← reqField fs "language" zString
    let b ← reqField fs "percentage" zNum
    let c ← reqField fs "fileCount" zNum
    let d ← reqField fs "mainFiles" (zList zString)
    .ok ⟨a, b, c, d⟩
  | none => .error "Expected object"

/-- Canonical JSON of a `LanguageStats`. -/
def LanguageStats.toJ (s : LanguageStats) : Json :=
  Json.mkObj [("language", .str s.language), ("percentage", .num s.percentage.1 s.percentage.2),
    ("fileCount", .num s.fileCount.1 s.fileCount.2),
    ("mainFiles", Json.mkArr (s.mainFiles.map Json.str))]

/-- `RepositoryStructureSchema` (field `struct` embeds the source field
named `structure`). -/
structure RepositoryStructure where
  type : RepoTy
  rootPath : String
  gitStatus : GitStatus
  struct : RepoStructure
  languages : List LanguageStats
deriving DecidableEq, Repr

/-- zod parse for `RepositoryStructureSchema`. -/
def parseRepositoryStructure (j : Json) : Except String RepositoryStructure :=
  match j.asFields with
  | some fs => do
    let a ← reqField fs "type" parseRepoTy
    let b ← reqField fs "rootPath" zString
    let c ← reqField fs "gitStatus" parseGitStatus
    let d ← reqField fs "structure" parseRepoStructure
    let e ← reqField fs "languages" (zList parseLanguageStats)
    .ok ⟨a, b, c, d, e⟩
  | none => .error "Expected object"

/-- Canonical JSON of a `RepositoryStructure`. -/
def RepositoryStructure.toJ (r : RepositoryStructure) : Json :=
  Json.mkObj [("type", .str r.type.toStr), ("rootPath", .str r.rootPath),
    ("gitStatus", r.gitStatus.toJ), ("structure", r.struct.toJ),
    ("languages", Json.mkArr (r.languages.map LanguageStats.toJ))]

/-- `ModuleInfoSchema`. -/
structure ModuleInfo where
  path : String
  purpose : String
deriving DecidableEq, Repr

/-- zod parse for `ModuleInfoSchema`. -/
def parseModuleInfo (j : Json) : Except String ModuleInfo :=
  match j.asFields with
  | some fs => do
    let a ← reqField fs "path" zString
    let b ← reqField fs "purpose" zString
    .ok ⟨a, b⟩
  | none => .error "Expected object"

/-- Canonical JSON of a `ModuleInfo`. -/
def ModuleInfo.toJ (m : ModuleInfo) : Json :=
  Json.mkObj [("path", .str m.path), ("purpose", .str m.purpose)]

/-- `InternalDependencySchema` (fields `src`/`dst` embed the source
fields named `from`/`to`; `from` is a Lean keyword). -/
structure InternalDependency where
  src : String
  dst : String
  type : String
deriving DecidableEq, Repr

/-- zod parse for `InternalDependencySchema`. -/
def parseInternalDependency (j : Json) : Except String InternalDependency :=
  match j.asFields with
  | some fs => do
    let a ← reqField fs "from" zString
    let b ← reqField fs "to" zString
    let c ← reqField fs "type" zString
    .ok ⟨a, b, c⟩
  | none => .error "Expected object"

/-- Canonical JSON of an `InternalDependency`. -/
def InternalDependency.toJ (d : InternalDependency) : Json :=
  Json.mkObj [("from", .str d.src), ("to", .str d.dst), ("type", .str d.type)]

/-- `KeyLibrarySchema`. -/
structure KeyLibrary where
  name : String
  purpose : String
  version : Option String
deriving DecidableEq, Repr

/-- zod parse for `KeyLibrarySchema`. -/
def parseKeyLibrary (j : Json) : Except String KeyLibrary :=
  match j.asFields with
  | some fs => do
    let a ← reqField fs "name" zString
    let b ← reqField fs "purpose" zString
    let c ← reqField fs "version" zStringNullable
    .ok ⟨a, b, c⟩
  | none => .error "Expected object"

/-- Canonical JSON of a `KeyLibrary`. -/
def KeyLibrary.toJ (k : KeyLibrary) : Json :=
  Json.mkObj [("name", .str k.name), ("purpose", .str k.purpose),
    ("version", encOptStr k.version)]

/-- `DependenciesAnalysisSchema`. -/
structure DependenciesAnalysis where
  internal : List InternalDependency
  external : List (String × String)
  keyLibraries : List KeyLibrary
deriving DecidableEq, Repr

/-- zod parse for `DependenciesAnalysisSchema`. -/
def parseDependenciesAnalysis (j : Json) : Except String DependenciesAnalysis :=
  match j.asFields with
  | some fs => do
    let a ← reqField fs "internal" (zList parseInternalDependency)
    let b ← reqField fs "external" zStrMap
    let c ← reqField fs "keyLibraries" (zList parseKeyLibrary)
    .ok ⟨a, b, c⟩
  | none => .error "Expected object"

/-- Canonical JSON of a `DependenciesAnalysis`. -/
def DependenciesAnalysis.toJ (d : DependenciesAnalysis) : Json :=
  Json.mkObj [("internal", Json.mkArr (d.internal.map InternalDependency.toJ)),
    ("external", Json.mkObj (d.external.map (fun kv => (kv.1, Json.str kv.2)))),
    ("keyLibraries", Json.mkArr (d.keyLibraries.map KeyLibrary.toJ))]

/-- `ArchitectureAnalysisSchema`. -/
structure ArchitectureAnalysis where
  pattern : String
  entryPoints : List String
  mainModules : List ModuleInfo
  dependencies : DependenciesAnalysis
deriving DecidableEq, Repr

/-- zod parse for `ArchitectureAnalysisSchema`. -/
def parseArchitectureAnalysis (j : Json) : Except String ArchitectureAnalysis :=
  match j.asFields with
  | some fs => do
    let a ← reqField fs "pattern" zString
    let b ← reqField fs "entryPoints" (zList zString)
    let c ← reqField fs "mainModules" (zList parseModuleInfo)
    let d ← reqField fs "dependencies" parseDependenciesAnalysis
    .ok ⟨a, b, c, d⟩
  | none => .error "Expected object"

/-- Canonical JSON of an `ArchitectureAnalysis`. -/
def ArchitectureAnalysis.toJ (a : ArchitectureAnalysis) : Json :=
  Json.mkObj [("pattern", .str a.pattern),
    ("entryPoints", Json.mkArr (a.entryPoints.map Json.str)),
    ("mainModules", Json.mkArr (a.mainModules.map ModuleInfo.toJ)),
    ("dependencies", a.dependencies.toJ)]

/-- `DocumentationAnalysisSchema`. -/
structure DocumentationAnalysis where
  hasReadme : Bool
  hasApiDocs : Bool
  codeComments : CommentsLevel
deriving DecidableEq, Repr

/-- zod parse for `DocumentationAnalysisSchema`. -/
def parseDocumentationAnalysis (j : Json) : Except String DocumentationAnalysis :=
  match j.asFields with
  | some fs => do
    let a ← reqField fs "hasReadme" zBool
    let b ← reqField fs "hasApiDocs" zBool
    let c ← reqField fs "codeComments" parseCommentsLevel
    .ok ⟨a, b, c⟩
  | none => .error "Expected object"

/-- Canonical JSON of a `DocumentationAnalysis`. -/
def DocumentationAnalysis.toJ (d : DocumentationAnalysis) : Json :=
  Json.mkObj [("hasReadme", .bool d.hasReadme), ("hasApiDocs", .bool d.hasApiDocs),
    ("codeComments", .str d.codeComments.toStr)]

/-- `CodeQualityAnalysisSchema`. -/
structure CodeQualityAnalysis where
  hasTests : Bool
  testCoverage : Option String
  linting : List String
  formatting : List String
  documentation : DocumentationAnalysis
deriving DecidableEq, Repr

/-- zod parse for `CodeQualityAnalysisSchema`. -/
def parseCodeQualityAnalysis (j : Json) : Except String CodeQualityAnalysis :=
  match j.asFields with
  | some fs => do
    let a ← reqField fs "hasTests" zBool
    let b ← reqField fs "testCoverage" zStringNullable
    let c ← reqField fs "linting" (zList zString)
    let d ← reqField fs "formatting" (zList zString)
    let e ← reqField fs "documentation" parseDocumentationAnalysis
    .ok ⟨a, b, c, d, e⟩
  | none => .error "Expected object"

/-- Canonical JSON of a `CodeQualityAnalysis`. -/
def CodeQualityAnalysis.toJ (c : CodeQualityAnalysis) : Json :=
  Json.mkObj [("hasTests", .bool c.hasTests), ("testCoverage", encOptStr c.testCoverage),
    ("linting", Json.mkArr (c.linting.map Json.str)),
    ("formatting", Json.mkArr (c.formatting.map Json.str)),
    ("documentation", c.documentation.toJ)]

/-- `FrameworkInfoSchema`. -/
structure FrameworkInfo where
  name : String
  version : Option String
  purpose : String
  configFiles : List String
deriving DecidableEq, Repr

/-- zod parse for `FrameworkInfoSchema`. -/
def parseFrameworkInfo (j : Json) : Except String FrameworkInfo :=
  match j.asFields with
  | some fs => do
    let a ← reqField fs "name" zString
    let b ← reqField fs "version" zStringNullable
    let c ← reqField fs "purpose" zString
    let d ← reqField fs "configFiles" (zList zString)
    .ok ⟨a, b, c, d⟩
  | none => .error "Expected object"

/-- Canonical JSON of a `FrameworkInfo`. -/
def FrameworkInfo.toJ (f : FrameworkInfo) : Json :=
  Json.mkObj [("name", .str f.name), ("version", encOptStr f.version),
    ("purpose", .str f.purpose), ("configFiles", Json.mkArr (f.configFiles.map Json.str))]

/-- `CodebaseAnalysisSchema`. -/
structure CodebaseAnalysis where
  architecture : ArchitectureAnalysis
  codeQuality : CodeQualityAnalysis
  frameworks : List FrameworkInfo
deriving DecidableEq, Repr

/-- zod parse for `CodebaseAnalysisSchema`. -/
def parseCodebaseAnalysis (j : Json) : Except String CodebaseAnalysis :=
  match j.asFields with
  | some fs => do
    let a ← reqField fs "architecture" parseArchitectureAnalysis
    let b ← reqField fs "codeQuality" parseCodeQualityAnalysis
    let c ← reqField fs "frameworks" (zList parseFrameworkInfo)
    .ok ⟨a, b, c⟩
  | none => .error "Expected object"

/-- Canonical JSON of a `CodebaseAnalysis`. -/
def CodebaseAnalysis.toJ (c : CodebaseAnalysis) : Json :=
  Json.mkObj [("architecture", c.architecture.toJ), ("codeQuality", c.codeQuality.toJ),
    ("frameworks", Json.mkArr (c.frameworks.map FrameworkInfo.toJ))]

/-- `BuildAttemptSchema`. -/
structure BuildAttempt where
  command : String
  success : Bool
  output : String
  issues : List String
deriving DecidableEq, Repr

/-- zod parse for `BuildAttemptSchema`. -/
def parseBuildAttempt (j : Json) : Except String BuildAttempt :=
  match j.asFields with
  | some fs => do
    let a ← reqField fs "command" zString
    let b ← reqField fs "success" zBool
    let c ← reqField fs "output" zString
    let d ← reqField fs "issues" (zList zString)
    .ok ⟨a, b, c, d⟩
  | none => .error "Expected object"

/-- Canonical JSON of a `BuildAttempt`. -/
def BuildAttempt.toJ (b : BuildAttempt) : Json :=
  Json.mkObj [("command", .str b.command), ("success", .bool b.success),
    ("output", .str b.output), ("issues", Json.mkArr (b.issues.map Json.str))]

/-- `BuildSystemSchema`. -/
structure BuildSystem where
  type : Option String
  configFiles : List String
  buildCommands : List String
  buildAttempts : List BuildAttempt
deriving DecidableEq, Repr

/-- zod parse for `BuildSystemSchema`. -/
def parseBuildSystem (j : Json) : Except String BuildSystem :=
  match j.asFields with
  | some fs => do
    let a ← reqField fs "type" zStringNullable
    let b ← reqField fs "configFiles" (zList zString)
    let c ← reqField fs "buildCommands" (zList zString)
    let d ← reqField fs "buildAttempts" (zList parseBuildAttempt)
    .ok ⟨a, b, c, d⟩
  | none => .error "Expected object"

/-- Canonical JSON of a `BuildSystem`. -/
def BuildSystem.toJ (b : BuildSystem) : Json :=
  Json.mkObj [("type", encOptStr b.type), ("configFiles", Json.mkArr (b.configFiles.map Json.str)),
    ("buildCommands", Json.mkArr (b.buildCommands.map Json.str)),
    ("buildAttempts", Json.mkArr (b.buildAttempts.map BuildAttempt.toJ))]

/-- `PackageManagementSchema`. -/
structure PackageManagement where
  managers : List String
  lockFiles : List String
  workspaceConfig : Option String
deriving DecidableEq, Repr

/-- zod parse for `PackageManagementSchema`. -/
def parsePackageManagement (j : Json) : Except String PackageManagement :=
  match j.asFields with
  | some fs => do
    let a ← reqField fs "managers" (zList zString)
    let b ← reqField fs "lockFiles" (zList zString)
    let c ← reqField fs "workspaceConfig" zStringNullable
    .ok ⟨a, b, c⟩
  | none => .error "Expected object"

/-- Canonical JSON of a `PackageManagement`. -/
def PackageManagement.toJ (p : PackageManagement) : Json :=
  Json.mkObj [("managers", Json.mkArr (p.managers.map Json.str)),
    ("lockFiles", Json.mkArr (p.lockFiles.map Json.str)),
    ("workspaceConfig", encOptStr p.workspaceConfig)]

/-- `TestAttemptSchema`. -/
structure TestAttempt where
  command : String
  success : Bool
  output : String
deriving DecidableEq, Repr

/-- zod parse for `TestAttemptSchema`. -/
def parseTestAttempt (j : Json) : Except String TestAttempt :=
  match j.asFields with
  | some fs => do
    let a ← reqField fs "command" zString
    let b ← reqField fs "success" zBool
    let c ← reqField fs "output" zString
    .ok ⟨a, b, c⟩
  | none => .error "Expected object"

/-- Canonical JSON of a `TestAttempt`. -/
def TestAttempt.toJ (t : TestAttempt) : Json :=
  Json.mkObj [("command", .str t.command), ("success", .bool t.success),
    ("output", .str t.output)]

/-- `TestingConfigSchema`. -/
structure TestingConfig where
  frameworks : List String
  testDirs : List String
  testCommands : List String
  testAttempts : List TestAttempt
deriving DecidableEq, Repr

/-- zod parse for `TestingConfigSchema`. -/
def parseTestingConfig (j : Json) : Except String TestingConfig :=
  match j.asFields with
  | some fs => do
    let a ← reqField fs "frameworks" (zList zString)
    let b ← reqField fs "testDirs" (zList zString)
    let c ← reqField fs "testCommands" (zList zString)
    let d ← reqField fs "testAttempts" (zList parseTestAttempt)
    .ok ⟨a, b, c, d⟩
  | none => .error "Expected object"

/-- Canonical JSON of a `TestingConfig`. -/
def TestingConfig.toJ (t : TestingConfig) : Json :=
  Json.mkObj [("frameworks", Json.mkArr (t.frameworks.map Json.str)),
    ("testDirs", Json.mkArr (t.testDirs.map Json.str)),
    ("testCommands", Json.mkArr (t.testCommands.map Json.str)),
    ("testAttempts", Json.mkArr (t.testAttempts.map TestAttempt.toJ))]

/-- `EnvironmentConfigSchema`. -/
structure EnvironmentConfig where
  envFiles : List String
  requiredVars : List String
deriving DecidableEq, Repr

/-- zod parse for `EnvironmentConfigSchema`. -/
def parseEnvironmentConfig (j : Json) : Except String EnvironmentConfig :=
  match j.asFields with
  | some fs => do
    let a ← reqField fs "envFiles" (zList zString)
    let b ← reqField fs "requiredVars" (zList zString)
    .ok ⟨a, b⟩
  | none => .error "Expected object"

/-- Canonical JSON of an `EnvironmentConfig`. -/
def EnvironmentConfig.toJ (e : EnvironmentConfig) : Json :=
  Json.mkObj [("envFiles", Json.mkArr (e.envFiles.map Json.str)),
    ("requiredVars", Json.mkArr (e.requiredVars.map Json.str))]

/-- `DeploymentConfigSchema`. -/
structure DeploymentConfig where
  cicd : List String
  dockerfiles : List String
  deploymentConfigs : List String
  environmentConfig : EnvironmentConfig
deriving DecidableEq, Repr

/-- zod parse for `DeploymentConfigSchema`. -/
def parseDeploymentConfig (j : Json) : Except String DeploymentConfig :=
  match j.asFields with
  | some fs => do
    let a ← reqField fs "cicd" (zList zString)
    let b ← reqField fs "dockerfiles" (zList zString)
    let c ← reqField fs "deploymentConfigs" (zList zString)
    let d ← reqField fs "environmentConfig" parseEnvironmentConfig
    .ok ⟨a, b, c, d⟩
  | none => .error "Expected object"

/-- Canonical JSON of a `DeploymentConfig`. -/
def DeploymentConfig.toJ (d : DeploymentConfig) : Json :=
  Json.mkObj [("cicd", Json.mkArr (d.cicd.map Json.str)),
    ("dockerfiles", Json.mkArr (d.dockerfiles.map Json.str)),
    ("deploymentConfigs", Json.mkArr (d.deploymentConfigs.map Json.str)),
    ("environmentConfig", d.environmentConfig.toJ)]

/-- `BuildAndDeploymentSchema`. -/
structure BuildAndDeployment where
  buildSystem : BuildSystem
  packageManagement : PackageManagement
  testing : TestingConfig
  deployment : DeploymentConfig
deriving DecidableEq, Repr

/-- zod parse for `BuildAndDeploymentSchema`. -/
def parseBuildAndDeployment (j : Json) : Except String BuildAndDeployment :=
  match j.asFields with
  | some fs => do
    let a ← reqField fs "buildSystem" parseBuildSystem
    let b ← reqField fs "packageManagement" parsePackageManagement
    let c ← reqField fs "testing" parseTestingConfig
    let d ← reqField fs "deployment" parseDeploymentConfig
    .ok ⟨a, b, c, d⟩
  | none => .error "Expected object"

/-- Canonical JSON of a `BuildAndDeployment`. -/
def BuildAndDeployment.toJ (b : BuildAndDeployment) : Json :=
  Json.mkObj [("buildSystem", b.buildSystem.toJ),
    ("packageManagement", b.packageManagement.toJ), ("testing", b.testing.toJ),
    ("deployment", b.deployment.toJ)]

/-- The `ComplexityLevelSchema` enumeration. -/
inductive ComplexityLevel where
  | simple | moderate | complex | veryComplex
deriving DecidableEq, Repr

/-- Canonical string of a complexity level. -/
def ComplexityLevel.toStr : ComplexityLevel → String
  | .simple => "simple"
  | .moderate => "moderate"
  | .complex => "complex"
  | .veryComplex => "very-complex"

/-- zod parse for `ComplexityLevelSchema`. -/
def parseComplexityLevel : Json → Except String ComplexityLevel
  | .str "simple" => .ok .simple
  | .str "moderate" => .ok .moderate
  | .str "complex" => .ok .complex
  | .str "very-complex" => .ok .veryComplex
  | _ => .error "Invalid enum value for complexity"

/-- The `MaturityLevelSchema` enumeration. -/
inductive MaturityLevel where
  | prototype | development | production | mature
deriving DecidableEq, Repr

/-- Canonical string of a maturity level. -/
def MaturityLevel.toStr : MaturityLevel → String
  | .prototype => "prototype"
  | .development => "development"
  | .production => "production"
  | .mature => "mature"

/-- zod parse for `MaturityLevelSchema`. -/
def parseMaturityLevel : Json → Except String MaturityLevel
  | .str "prototype" => .ok .prototype
  | .str "development" => .ok .development
  | .str "production" => .ok .production
  | .str "mature" => .ok .mature
  | _ => .error "Invalid enum value for maturity"

/-- The `MaintainabilityLevelSchema` enumeration. -/
inductive MaintainabilityLevel where
  | excellent | good | fair | poor
deriving DecidableEq, Repr

/-- Canonical string of a maintainability level. -/
def MaintainabilityLevel.toStr : MaintainabilityLevel → String
  | .excellent => "excellent"
  | .good => "good"
  | .fair => "fair"
  | .poor => "poor"

/-- zod parse for `MaintainabilityLevelSchema`. -/
def parseMaintainabilityLevel : Json → Except String MaintainabilityLevel
  | .str "excellent" => .ok .excellent
  | .str "good" => .ok .good
  | .str "fair" => .ok .fair
  | .str "poor" => .ok .poor
  | _ => .error "Invalid enum value for maintainability"

/-- `StrengthsWeaknessesSchema`. -/
structure StrengthsWeaknesses where
  strengths : List String
  weaknesses : List String
deriving DecidableEq, Repr

/-- zod parse for `StrengthsWeaknessesSchema`. -/
def parseStrengthsWeaknesses (j : Json) : Except String StrengthsWeaknesses :=
  match j.asFields with
  | some fs => do
    let a ← reqField fs "strengths" (zList zString)
    let b ← reqField fs "weaknesses" (zList zString)
    .ok ⟨a, b⟩
  | none => .error "Expected object"

/-- Canonical JSON of a `StrengthsWeaknesses`. -/
def StrengthsWeaknesses.toJ (s : StrengthsWeaknesses) : Json :=
  Json.mkObj [("strengths", Json.mkArr (s.strengths.map Json.str)),
    ("weaknesses", Json.mkArr (s.weaknesses.map Json.str))]

/-- `InsightsSchema`. -/
structure Insights where
  complexity : ComplexityLevel
  maturity : MaturityLevel
  maintainability : MaintainabilityLevel
  recommendations : List String
  potentialIssues : List String
  strengthsWeaknesses : StrengthsWeaknesses
deriving DecidableEq, Repr

/-- zod parse for `InsightsSchema`. -/
def parseInsights (j : Json) : Except String Insights :=
  match j.asFields with
  | some fs => do
    let a ← reqField fs "complexity" parseComplexityLevel
    let b ← reqField fs "maturity" parseMaturityLevel
    let c ← reqField fs "maintainability" parseMaintainabilityLevel
    let d ← reqField fs "recommendations" (zList zString)
    let e ← reqField fs "potentialIssues" (zList zString)
    let f ← reqField fs "strengthsWeaknesses" parseStrengthsWeaknesses
    .ok ⟨a, b, c, d, e, f⟩
  | none => .error "Expected object"

/-- Canonical JSON of an `Insights`. -/
def Insights.toJ (i : Insights) : Json :=
  Json.mkObj [("complexity", .str i.complexity.toStr), ("maturity", .str i.maturity.toStr),
    ("maintainability", .str i.maintainability.toStr),
    ("recommendations", Json.mkArr (i.recommendations.map Json.str)),
    ("potentialIssues", Json.mkArr (i.potentialIssues.map Json.str)),
    ("strengthsWeaknesses", i.strengthsWeaknesses.toJ)]

/-- `ConfidenceScoresSchema`. -/
structure ConfidenceScores where
  repository : JsNum
  codebase : JsNum
  buildDeploy : JsNum
  overall : JsNum
deriving DecidableEq, Repr

/-- zod parse for `ConfidenceScoresSchema`. -/
def parseConfidenceScores (j : Json) : Except String ConfidenceScores :=
  match j.asFields with
  | some fs => do
    let a ← reqField fs "repository" zNum
    let b ← reqField fs "codebase" zNum
    let c ← reqField fs "buildDeploy" zNum
    let d ← reqField fs "overall" zNum
    .ok ⟨a, b, c, d⟩
  | none => .error "Expected object"

/-- Canonical JSON of a `ConfidenceScores`. -/
def ConfidenceScores.toJ (c : ConfidenceScores) : Json :=
  Json.mkObj [("repository", .num c.repository.1 c.repository.2),
    ("codebase", .num c.codebase.1 c.codebase.2),
    ("buildDeploy", .num c.buildDeploy.1 c.buildDeploy.2),
    ("overall", .num c.overall.1 c.overall.2)]

/-- `RepoContextSchema`. -/
structure RepoContext where
  repository : RepositoryStructure
  codebase : CodebaseAnalysis
  buildDeploy : BuildAndDeployment
  insights : Insights
  confidence : ConfidenceScores
  executiveSummary : String
deriving DecidableEq, Repr

/-- zod parse for `RepoContextSchema`. -/
def parseRepoContext (j : Json) : Except String RepoContext :=
  match j.asFields with
  | some fs => do
    let a ← reqField fs "repository" parseRepositoryStructure
    let b ← reqField fs "codebase" parseCodebaseAnalysis
    let c ← reqField fs "buildDeploy" parseBuildAndDeployment
    let d ← reqField fs "insights" parseInsights
    let e ← reqField fs "confidence" parseConfidenceScores
    let f ← reqField fs "executiveSummary" zString
    .ok ⟨a, b, c, d, e, f⟩
  | none => .error "Expected object"

/-- Canonical JSON of a `RepoContext`. -/
def RepoContext.toJ (r : RepoContext) : Json :=
  Json.mkObj [("repository", r.repository.toJ), ("codebase", r.codebase.toJ),
    ("buildDeploy", r.buildDeploy.toJ), ("insights", r.insights.toJ),
    ("confidence", r.confidence.toJ), ("executiveSummary", .str r.executiveSummary)]

-- ===========================================================================
-- Normalization helpers (source: context-gathering workflow, lines 137-214)
-- ===========================================================================

/-- Allowed comments levels (source set `allowedComments`). -/
def allowedComments : List String := ["extensive", "moderate", "minimal", "none"]

/-- Allowed repository types (source set `allowedRepoTypes`). -/
def allowedRepoTypes : List String := ["monorepo", "single-package", "multi-project"]

/-- Allowed package types (source set `allowedPackageTypes`). -/
def allowedPackageTypes : List String := ["app", "library", "tool", "config", "unknown"]

/-- Replace every whitespace run by a single dash (the global
`replace` of one-or-more whitespace by a dash); the flag records
whether the previous character was whitespace. -/
def collapseWsDash : List Char → Bool → List Char
  | [], _ => []
  | c :: rest, prevWs =>
    if jsWs c then
      if prevWs then collapseWsDash rest true else '-' :: collapseWsDash rest true
    else c :: collapseWsDash rest false

/-- The canonical form used by `normalizeRepoType`: trim, lower-case,
hyphenate whitespace. -/
def canonRepo (s : String) : String :=
  String.mk (collapseWsDash (jsLowerL (jsTrimL s.data)) false)

/-- The canonical form used by `normalizePackageType` and the
comments-level normalization: trim and lower-case. -/
def canonPkg (s : String) : String :=
  String.mk (jsLowerL (jsTrimL s.data))

/-- Source function `normalizeRepoType` (input `unknown`; `none` is
`undefined`). -/
def normalizeRepoType (value : Option Json) : String :=
  match value with
  | some (.str s) =>
    let v := canonRepo s
    if allowedRepoTypes.contains v then v
    else if hasSub "mono".data v.data then "monorepo"
    else if hasSub "multi".data v.data then "multi-project"
    else "single-package"
  | _ => "single-package"

/-- Source function `normalizePackageType` (input `unknown`; `none` is
`undefined`). -/
def normalizePackageType (value : Option Json) : String :=
  match value with
  | some (.str s) =>
    let v := canonPkg s
    if allowedPackageTypes.contains v then v
    else if hasSub "lib".data v.data then "library"
    else if hasSub "app".data v.data then "app"
    else if hasSub "tool".data v.data then "tool"
    else if hasSub "config".data v.data || hasSub "cfg".data v.data then "config"
    else "unknown"
  | _ => "unknown"

/-- The boolean coercion used on documentation flags: null or undefined
becomes `false`, anything else its JavaScript truthiness. -/
def coerceDocFlag : Option Json → Json
  | none => .bool false
  | some .null => .bool false
  | some v => .bool (jsTruthy v)

/-- Source function `normalizeDoc`: coerce the documentation flags and
clamp the comments level to the allowed set (mutation is modelled as a
rebuild that keeps key positions; values without JSON-visible
properties are returned unchanged). -/
def normalizeDoc (doc : Json) : Json :=
  match doc.asFields with
  | none => doc
  | some fs =>
    let newReadme := coerceDocFlag (fs.lookup "hasReadme")
    let newApiDocs := coerceDocFlag (fs.lookup "hasApiDocs")
    let commentsVal : Option String :=
      match fs.lookup "codeComments" with
      | some (.str s) => some (canonPkg s)
      | _ => none
    let newComments : Json :=
      match commentsVal with
      | some c => if c ≠ "" ∧ allowedComments.contains c then .str c else .str "none"
      | none => .str "none"
    Json.mkObj (putField "codeComments" newComments
      (putField "hasApiDocs" newApiDocs (putField "hasReadme" newReadme fs)))

/-- The package rebuild inside `normalizeRepositoryShape` (the map over
`structure.packages`). -/
def normalizePkg (pkg : Json) : Json :=
  let pathV : Json :=
    match pkg.getF "path" with
    | some (.str s) => .str s
    | some v => if jsTruthy v then .str (jsToString v) else .str "."
    | none => .str "."
  let nameV : Json :=
    match pkg.getF "name" with
    | some (.str s) => .str s
    | some .null => .null
    | some v => .str (jsToString v)
    | none => .null
  let typeV : Json := .str (normalizePackageType (pkg.getF "type"))
  let langV : Json :=
    match pkg.getF "language" with
    | some (.str s) => .str s
    | some .null => .null
    | some v => .str (jsToString v)
    | none => .null
  Json.mkObj [("path", pathV), ("name", nameV), ("type", typeV), ("language", langV)]

/-- Source function `normalizeRepositoryShape`: normalize the `type`
field when present and rebuild every entry of `structure.packages` when
that is an array. -/
def normalizeRepositoryShape (repo : Json) : Json :=
  match repo.asFields with
  | none => repo
  | some fs =>
    let fs1 :=
      match fs.lookup "type" with
      | some v => putField "type" (.str (normalizeRepoType (some v))) fs
      | none => fs
    match fs1.lookup "structure" with
    | some sv =>
      if jsTruthy sv then
        match sv.asFields with
        | some sfs =>
          (match sfs.lookup "packages" with
           | some pv =>
             (match pv.asList with
              | some items =>
                Json.mkObj (putField "structure"
                  (Json.mkObj (putField "packages" (Json.mkArr (items.map normalizePkg)) sfs)) fs1)
              | none => Json.mkObj fs1)
           | none => Json.mkObj fs1)
        | none => Json.mkObj fs1
      else Json.mkObj fs1
    | none => Json.mkObj fs1

/-- First guard of `normalizeAgentJsonForSchemas`: a direct
codebase-analysis shape (`data.codeQuality.documentation`). -/
def normDocGuard (d : Json) : Json :=
  match d.getF "codeQuality" with
  | some cq =>
    if jsTruthy cq then
      match cq.getF "documentation" with
      | some doc =>
        if jsTruthy doc then d.setF "codeQuality" (cq.setF "documentation" (normalizeDoc doc))
        else d
      | none => d
    else d
  | none => d

/-- Second guard of `normalizeAgentJsonForSchemas`: a repo-context shape
with a nested codebase analysis (`data.codebase.codeQuality.documentation`). -/
def normDocNestedGuard (d : Json) : Json :=
  match d.getF "codebase" with
  | some cb =>
    if jsTruthy cb then
      match cb.getF "codeQuality" with
      | some cq =>
        if jsTruthy cq then
          match cq.getF "documentation" with
          | some doc =>
            if jsTruthy doc then
              d.setF "codebase" (cb.setF "codeQuality" (cq.setF "documentation" (normalizeDoc doc)))
            else d
          | none => d
        else d
      | none => d
    else d
  | none => d

/-- Third guard of `normalizeAgentJsonForSchemas`: a direct
repository-structure shape (both `gitStatus` and `structure` present
and truthy). -/
def normRepoShapeTop (d : Json) : Json :=
  if jsTruthyOpt (d.getF "gitStatus") && jsTruthyOpt (d.getF "structure") then
    normalizeRepositoryShape d
  else d

/-- Fourth guard of `normalizeAgentJsonForSchemas`: a repo-context shape
with a nested repository structure. -/
def normRepoShapeNested (d : Json) : Json :=
  match d.getF "repository" with
  | some r =>
    if jsTruthy r then d.setF "repository" (normalizeRepositoryShape r) else d
  | none => d

/-- Source function `normalizeAgentJsonForSchemas`: best-effort
normalization of a parsed agent payload before schema validation. -/
def normalizeAgentJsonForSchemas (data : Json) : Json :=
  if jsTruthy data then
    normRepoShapeNested (normRepoShapeTop (normDocNestedGuard (normDocGuard data)))
  else data

-- ===========================================================================
-- callContextAgentForAnalysis parsing pipeline (source: context-gathering
-- workflow, lines 256-301)
-- ===========================================================================

/-- One pass of the workflow's parse-normalize-validate pipeline on an
extracted JSON text. -/
def parseNormalizeValidate {α : Type} (schemaParse : Json → Except String α)
    (jsonText : String) : Except String α :=
  (jsonParse jsonText).bind (fun parsed => schemaParse (normalizeAgentJsonForSchemas parsed))

/-- The response-handling core of `callContextAgentForAnalysis`: extract,
parse, normalize, validate; on failure recover once and repeat; on a
second failure throw an error carrying the original message. -/
def agentJsonPipeline {α : Type} (text : String)
    (schemaParse : Json → Except String α) : Except String α :=
  let jsonText := extractJsonFromText text
  match parseNormalizeValidate schemaParse jsonText with
  | .ok v => .ok v
  | .error e =>
    match parseNormalizeValidate schemaParse (attemptJsonRecovery jsonText) with
    | .ok v => .ok v
    | .error _ => .error ("JSON parsing failed: " ++ e)

-- ===========================================================================
-- withRetryAndAlerts (source: context-gathering workflow, lines 305-356)
-- ===========================================================================

/-- JavaScript thrown values, as far as `getErrorMessage` distinguishes
them: `Error` objects (carrying a message), strings, and everything
else (carrying its `String(v)` rendering). -/
inductive JsVal where
  | jsError (msg : String)
  | jsStr (s : String)
  | jsOther (text : String)
deriving DecidableEq, Repr

/-- Source function `getErrorMessage` (error-utilities module). -/
def getErrorMessage : JsVal → String
  | .jsError m => m
  | .jsStr s => s
  | .jsOther t => t

/-- The wrapping on the final throw of the retry loop:
`error instanceof Error ? error : new Error(getErrorMessage(error))`. -/
def toErrorJs : JsVal → JsVal
  | .jsError m => .jsError m
  | v => .jsError (getErrorMessage v)

/-- A retry notification as emitted by `notifyStepStatus` inside the
retry loop: the attempt index (also in the metadata), the error message
(the subtitle) and the severity level. -/
structure RetryNotif where
  attempt : Nat
  message : String
  level : String
deriving DecidableEq, Repr

/-- The observable trace of one `withRetryAndAlerts` run: the final
outcome, the 1-based indices of the attempts actually invoked (in
order), and the retry notifications emitted (in order). -/
structure RetryTrace (α : Type) where
  result : Except JsVal α
  calls : List Nat
  notifs : List RetryNotif
deriving Repr

/-- The retry loop from attempt `idx` with the given number of attempts
remaining.  The zero case models the unreachable fall-through after the
loop (which wraps the undefined `lastError`). -/
def retryAux {α : Type} (attempt : Nat → Except JsVal α) (idx : Nat) :
    Nat → RetryTrace α
  | 0 => ⟨.error (.jsError "undefined"), [], []⟩
  | n + 1 =>
    match attempt idx with
    | .ok v => ⟨.ok v, [idx], []⟩
    | .error e =>
      match n with
      | 0 => ⟨.error (toErrorJs e), [idx], []⟩
      | m + 1 =>
        let t := retryAux attempt (idx + 1) (m + 1)
        ⟨t.result, idx :: t.calls, ⟨idx, getErrorMessage e, "warning"⟩ :: t.notifs⟩

/-- Source function `withRetryAndAlerts`: sequential attempts, a warning
notification after every non-final failure, the first success returned,
the last error re-raised (wrapped into an `Error`) once the budget is
spent. -/
def withRetryAndAlerts {α : Type} (maxAttempts : Nat)
    (attempt : Nat → Except JsVal α) : RetryTrace α :=
  retryAux attempt 1 maxAttempts

-- ===========================================================================
-- analyzeRepositoryStep (source: context-gathering workflow, lines 362-522)
-- ===========================================================================

/-- The workflow input record (container id, optional repository path,
project id). -/
structure WorkflowInput where
  containerId : String
  repoPath : Option String
  projectId : String
deriving DecidableEq, Repr

/-- The output record of `analyzeRepositoryStep`
(`AnalyzeRepositoryOutputSchema`). -/
structure AnalyzeRepositoryOutput where
  containerId : String
  repository : RepositoryStructure
  projectId : String
deriving DecidableEq, Repr

/-- The minimal fallback repository structure returned by the catch
branch of `analyzeRepositoryStep` (source lines 499-519). -/
def fallbackRepository : RepositoryStructure :=
  ⟨.singlePackage, "/app", ⟨false, none, none, false, false⟩,
    ⟨[], [], ["node_modules", ".git", "build", "dist", ".next", ".venv", "target"]⟩, []⟩

/-- The data flow of `analyzeRepositoryStep`'s execute function: the
retried agent analysis on success, the fallback structure when the
retry-wrapped call ultimately throws; `containerId` and `projectId` are
passed through.  The agent call itself is the external collaborator,
abstracted as the outcome of each attempt. -/
def analyzeRepositoryStepExecute (input : WorkflowInput)
    (attempt : Nat → Except JsVal RepositoryStructure) : AnalyzeRepositoryOutput :=
  match (withRetryAndAlerts 3 attempt).result with
  | .ok r => ⟨input.containerId, r, input.projectId⟩
  | .error _ => ⟨input.containerId, fallbackRepository, input.projectId⟩

-- ===========================================================================
-- extractRepoCoordinates (source: full-pipeline workflow, lines 85-132)
-- ===========================================================================

/-- The result record of `extractRepoCoordinates`. -/
structure RepoCoordinates where
  owner : Option String
  repo : Option String
  resolvedRepoPath : String
deriving DecidableEq, Repr

/-- The typed fields of `ContextDataSchema` that
`extractRepoCoordinates` reads (all optional strings). -/
structure ContextData where
  owner : Option String
  repo : Option String
  fullName : Option String
  full_name : Option String
deriving DecidableEq, Repr

/-- JavaScript truthiness of a possibly-undefined string. -/
def optTruthy : Option String → Bool
  | some s => s ≠ ""
  | none => false

/-- JavaScript `a || b` on possibly-undefined strings. -/
def jsOrStr (a b : Option String) : Option String :=
  if optTruthy a then a else b

/-- Match the GitHub-URL regular expression at the start of the text:
the literal `github.com/`, a non-empty run without slashes, a slash, a
non-empty run without slashes or dots. -/
def ghPatAt (s : List Char) : Option (String × String) :=
  if "github.com/".data.isPrefixOf s then
    let tail := s.drop 11
    let owner := tail.takeWhile (· ≠ '/')
    if owner.isEmpty then none
    else
      match tail.drop owner.length with
      | '/' :: t2 =>
        let repo := t2.takeWhile (fun c => !(c = '/' ∨ c = '.'))
        if repo.isEmpty then none else some (String.mk owner, String.mk repo)
      | _ => none
  else none

/-- Leftmost match of the GitHub-URL regular expression. -/
def ghPatMatch : List Char → Option (String × String)
  | [] => none
  | c :: rest =>
    match ghPatAt (c :: rest) with
    | some p => some p
    | none => ghPatMatch rest

/-- The default repository identity used when no URL and no context hint
is available. -/
def defaultRepoIdentity : String := "AntonioAEMartins/yc-24h-hackathon-agent"

/-- The URL branch of `extractRepoCoordinates` (the repository URL is
provided and truthy; it has already been trimmed). -/
def repoCoordsFromUrl (repoUrl : String) : Except String RepoCoordinates :=
  if strIncludes "github.com/" repoUrl then
    match ghPatMatch repoUrl.data with
    | some p => .ok ⟨some p.1, some p.2, p.1 ++ "/" ++ p.2⟩
    | none => .error ("Invalid GitHub URL format: " ++ repoUrl)
  else if repoUrl.data.contains '/' && !(repoUrl.data.contains ' ') then
    let parts := repoUrl.splitOn "/"
    let ownerPart := parts.getD 0 ""
    let repoPart := parts.getD 1 ""
    if ownerPart ≠ "" && repoPart ≠ "" then .ok ⟨some ownerPart, some repoPart, repoUrl⟩
    else .error ("Invalid repository format: " ++ repoUrl ++ ". Expected format: \"owner/repo\"")
  else
    .error ("Invalid repository format: " ++ repoUrl ++
      ". Expected format: \"owner/repo\" or GitHub URL")

/-- The `fullName` hint read from context data: the `fullName` field
when it is a string, else the `full_name` field. -/
def ctxFullNameHint (context : ContextData) : Option String :=
  match context.fullName with
  | some s => some s
  | none => context.full_name

/-- The context-data branch of `extractRepoCoordinates` (no repository
URL, or a falsy one). -/
def repoCoordsFromContext (contextData : Option ContextData) : RepoCoordinates :=
  let context := contextData.getD ⟨none, none, none, none⟩
  let o0 := context.owner
  let r0 := context.repo
  let fullName := ctxFullNameHint context
  let pair :=
    if (!optTruthy o0 || !optTruthy r0) && optTruthy fullName &&
        strIncludes "/" (fullName.getD "") then
      let parts := (fullName.getD "").splitOn "/"
      (jsOrStr o0 (some (parts.getD 0 "")), jsOrStr r0 (some (parts.getD 1 "")))
    else (o0, r0)
  let resolved :=
    if optTruthy pair.1 && optTruthy pair.2 then pair.1.getD "" ++ "/" ++ pair.2.getD ""
    else defaultRepoIdentity
  ⟨pair.1, pair.2, resolved⟩

/-- Source function `extractRepoCoordinates`: resolve owner, repository
name and path from the repository URL when one is given, else from the
context data, else from the fixed default identity. -/
def extractRepoCoordinates (repositoryUrl : Option String)
    (contextData : Option ContextData) : Except String RepoCoordinates :=
  match repositoryUrl with
  | some u =>
    if u ≠ "" then repoCoordsFromUrl (jsTrim u)
    else .ok (repoCoordsFromContext contextData)
  | none => .ok (repoCoordsFromContext contextData)

-- ===========================================================================
-- Claim-side specification functions (written from the claims' wording)
-- and concrete inputs used by counterexamples and witnesses
-- ===========================================================================

deriving instance DecidableEq for Except

/-- Clause 1 of the extraction claim: the trimmed body of a fenced code
block, when it exceeds 10 characters. -/
def fenceClause (t : String) : Option String :=
  match fenceSearch t.data with
  | some cap => if 10 < (jsTrimL cap).length then some (String.mk (jsTrimL cap)) else none
  | none => none

/-- Clause 2 of the extraction claim: the substring from the first
opening brace to the last closing brace, inclusive, whenever the last
closing brace occurs after the first opening brace. -/
def braceClause (t : String) : Option String :=
  match firstIdxOf (Char.ofNat 123) t.data, lastIdxOf (Char.ofNat 125) t.data with
  | some s, some e =>
    if s < e then some (String.mk ((t.data.drop s).take (e + 1 - s))) else none
  | _, _ => none

/-- Clause 3 of the extraction claim: the first fallback
regular-expression match whose trimmed length exceeds 10. -/
def fallbackClause (t : String) : Option String :=
  (patsLoop t.data).map String.mk

/-- The extraction claim, read as a function: the clauses in priority
order, with the original text as the final fallback. -/
def extractionSpec (t : String) : String :=
  match fenceClause t with
  | some r => r
  | none =>
    match braceClause t with
    | some r => r
    | none =>
      match fallbackClause t with
      | some r => r
      | none => t

/-- The recovery claim's characterization of a removed comma: a comma
immediately preceding, possibly across whitespace, a closing brace or
bracket. -/
def commaQualifies (l : List Char) (i : Nat) : Bool :=
  (l.getD i ' ' == ',') && closingNext (l.drop (i + 1))

/-- The recovery claim's comma-removal pass, written positionally: the
characters whose positions are not qualifying commas. -/
def commaRemovedSpec (l : List Char) : List Char :=
  ((List.range l.length).filter (fun i => !commaQualifies l i)).map (fun i => l.getD i ' ')

/-- The recovery claim, read as a function: remove qualifying commas,
then append one closing brace per unmatched opening brace. -/
def recoverySpec (s : String) : String :=
  let r := commaRemovedSpec s.data
  String.mk (r ++ List.replicate (r.count (Char.ofNat 123) - r.count (Char.ofNat 125)) (Char.ofNat 125))

/-- The thrown value observed at attempt `i` (a placeholder when the
attempt succeeded). -/
def errAt {α : Type} (attempt : Nat → Except JsVal α) (i : Nat) : JsVal :=
  match attempt i with
  | .error e => e
  | .ok _ => .jsOther "undefined"

/-- The retry notification the claim predicts after a failed non-final
attempt `i`. -/
def mkNotif {α : Type} (attempt : Nat → Except JsVal α) (i : Nat) : RetryNotif :=
  ⟨i, getErrorMessage (errAt attempt i), "warning"⟩

/-- The claim's predicted outcome from one attempt: the success value,
or the failure wrapped into an `Error`. -/
def specResult {α : Type} : Except JsVal α → Except JsVal α
  | .ok v => .ok v
  | .error e => .error (toErrorJs e)

/-- The retry claim, read as a function, generalized to a first attempt
index `idx`: find the first success among `n` sequential attempts; its
value is returned, the attempts up to it are invoked, and each failed
non-final attempt emits one warning notification; with no success all
`n` attempts are invoked and the last error is re-raised wrapped. -/
def retrySpecFrom {α : Type} (attempt : Nat → Except JsVal α) (idx n : Nat) :
    RetryTrace α :=
  match (List.range' idx n).find? (fun i => isOkE (attempt i)) with
  | some k =>
    ⟨specResult (attempt k), List.range' idx (k + 1 - idx),
      (List.range' idx (k - idx)).map (mkNotif attempt)⟩
  | none =>
    ⟨.error (toErrorJs (errAt attempt (idx + n - 1))), List.range' idx n,
      (List.range' idx (n - 1)).map (mkNotif attempt)⟩

/-- The retry claim, read as a function. -/
def retrySpec {α : Type} (attempt : Nat → Except JsVal α) (m : Nat) : RetryTrace α :=
  retrySpecFrom attempt 1 m

/-- The repository-classification claim, read as a function: trim,
lower-case and hyphenate strings; `mono` wins over `multi`; everything
else (including non-strings) is `single-package`. -/
def repoTypeSpec (value : Option Json) : String :=
  match value with
  | some (.str s) =>
    let v := canonRepo s
    if hasSub "mono".data v.data then "monorepo"
    else if hasSub "multi".data v.data then "multi-project"
    else "single-package"
  | _ => "single-package"

/-- The package-classification claim, read as a function. -/
def packageTypeSpec (value : Option Json) : String :=
  match value with
  | some (.str s) =>
    let v := canonPkg s
    if hasSub "lib".data v.data then "library"
    else if hasSub "app".data v.data then "app"
    else if hasSub "tool".data v.data then "tool"
    else if hasSub "config".data v.data || hasSub "cfg".data v.data then "config"
    else "unknown"
  | _ => "unknown"

/-- The JSON-parse-and-validate pass without normalization, as
`parseAgentJsonResponse` actually performs it. -/
def noNormPipe {α : Type} (schemaParse : Json → Except String α) (j : String) :
    Except String α :=
  (jsonParse j).bind schemaParse

/-- The amended repository-coordinate claim's throw condition for a
provided, non-empty (already trimmed) repository URL. -/
def urlThrows (repoUrl : String) : Bool :=
  if strIncludes "github.com/" repoUrl then !(ghPatMatch repoUrl.data).isSome
  else if repoUrl.data.contains '/' && !(repoUrl.data.contains ' ') then
    ((repoUrl.splitOn "/").getD 0 "" == "") || ((repoUrl.splitOn "/").getD 1 "" == "")
  else true

/-- The agent response of the normalization example: a repository
payload with off-enum spellings. -/
def monoShortText : String :=
  "\x7b\"type\":\"Mono\", \"structure\":\x7b\"packages\":[\x7b\"type\":\"Library\"\x7d]\x7d\x7d"

/-- A complete repository-structure payload whose only defect is the
off-enum spelling `Mono`: normalization (were it applied) would repair
it, schema validation without normalization rejects it. -/
def monoFullText : String :=
  "\x7b\"type\":\"Mono\",\"rootPath\":\"/app\",\"gitStatus\":\x7b\"isGitRepo\":false,\"defaultBranch\":null,\"lastCommit\":null,\"hasRemote\":false,\"isDirty\":false\x7d,\"structure\":\x7b\"packages\":[],\"keyDirectories\":[],\"ignoredPaths\":[]\x7d,\"languages\":[]\x7d"

/-- A schema-satisfying repository-structure value carrying one extra
key inside a package (zod accepts and strips unknown keys). -/
def extraKeyText : String :=
  "\x7b\"type\":\"single-package\",\"rootPath\":\"/app\",\"gitStatus\":\x7b\"isGitRepo\":false,\"defaultBranch\":null,\"lastCommit\":null,\"hasRemote\":false,\"isDirty\":false\x7d,\"structure\":\x7b\"packages\":[\x7b\"path\":\".\",\"name\":null,\"type\":\"app\",\"language\":null,\"note\":\"extra\"\x7d],\"keyDirectories\":[],\"ignoredPaths\":[]\x7d,\"languages\":[]\x7d"

/-- The parsed JSON value of `extraKeyText`. -/
def extraKeyVal : Json :=
  (jsonParse extraKeyText).toOption.getD Json.null

/-- The parsed JSON value of `monoShortText`. -/
def monoShortVal : Json :=
  (jsonParse monoShortText).toOption.getD Json.null

/-- A concrete attempt function that fails twice and then succeeds
(the retry example of the specification). -/
def attemptTwiceFails : Nat → Except JsVal Nat :=
  fun i => if i ≤ 2 then .error (.jsError ("boom " ++ toString i)) else .ok 42

/-- A concrete attempt function that always fails. -/
def attemptAlwaysFails : Nat → Except JsVal RepositoryStructure :=
  fun i => .error (.jsStr ("agent failure " ++ toString i))

/-- No opening brace is followed, anywhere later, by a closing brace
(the situation in which the brace-boundary branch of extraction finds
nothing). -/
def noBracePair (l : List Char) : Prop :=
  ∀ a b c, l ≠ a ++ Char.ofNat 123 :: (b ++ Char.ofNat 125 :: c)

-- ===========================================================================
-- Theorems
-- ===========================================================================

/-- Claim C9: with no repository URL and no usable context hint, the
resolver silently returns the fixed default identity (an `owner/repo`
shaped constant) and leaves owner and repo undefined. -/
theorem repo_coords_default_identity (ctx : Option ContextData)
    (howner : (ctx.getD ⟨none, none, none, none⟩).owner = none)
    (hrepo : (ctx.getD ⟨none, none, none, none⟩).repo = none)
    (hfull : (optTruthy (ctxFullNameHint (ctx.getD ⟨none, none, none, none⟩)) &&
      strIncludes "/" ((ctxFullNameHint (ctx.getD ⟨none, none, none, none⟩)).getD "")) = false) :
    extractRepoCoordinates none ctx = .ok ⟨none, none, defaultRepoIdentity⟩ ∧
    defaultRepoIdentity = "AntonioAEMartins/yc-24h-hackathon-agent" ∧
    strIncludes "/" defaultRepoIdentity = true := by
  refine ⟨?_, rfl, by decide⟩
  simp only [extractRepoCoordinates, repoCoordsFromContext, howner, hrepo,
    show optTruthy none = false from rfl, Bool.not_false, Bool.true_or, Bool.true_and, hfull]
  rfl

/-- Witness for C9 at the empty context. -/
theorem repo_coords_default_identity_witness :
    extractRepoCoordinates none none = .ok ⟨none, none, defaultRepoIdentity⟩ ∧
    defaultRepoIdentity = "AntonioAEMartins/yc-24h-hackathon-agent" ∧
    strIncludes "/" defaultRepoIdentity = true :=
  repo_coords_default_identity none rfl rfl (by decide)

/-- Claim C8: when the retried repository analysis ultimately fails, the
step swallows the error and returns the minimal fallback repository
structure, which validates against the repository schema, with the
input's container and project ids preserved. -/
theorem analyze_repository_fallback (input : WorkflowInput)
    (attempt : Nat → Except JsVal RepositoryStructure) (e : JsVal)
    (h : (withRetryAndAlerts 3 attempt).result = .error e) :
    analyzeRepositoryStepExecute input attempt =
      ⟨input.containerId, fallbackRepository, input.projectId⟩ ∧
    fallbackRepository.type = .singlePackage ∧
    fallbackRepository.rootPath = "/app" ∧
    fallbackRepository.struct.packages = [] ∧
    fallbackRepository.languages = [] ∧
    fallbackRepository.gitStatus.isGitRepo = false ∧
    parseRepositoryStructure fallbackRepository.toJ = .ok fallbackRepository := by
  refine ⟨?_, rfl, rfl, rfl, rfl, rfl, by decide⟩
  unfold analyzeRepositoryStepExecute
  rw [h]

/-- Witness for C8 at a concrete always-failing attempt. -/
theorem analyze_repository_fallback_witness :
    analyzeRepositoryStepExecute ⟨"container-7", none, "project-9"⟩ attemptAlwaysFails =
      ⟨"container-7", fallbackRepository, "project-9"⟩ ∧
    fallbackRepository.type = .singlePackage ∧
    fallbackRepository.rootPath = "/app" ∧
    fallbackRepository.struct.packages = [] ∧
    fallbackRepository.languages = [] ∧
    fallbackRepository.gitStatus.isGitRepo = false ∧
    parseRepositoryStructure fallbackRepository.toJ = .ok fallbackRepository :=
  analyze_repository_fallback ⟨"container-7", none, "project-9"⟩ attemptAlwaysFails
    (.jsError "agent failure 3") rfl

/-- Counterexample to claim C6: the parse-normalize-validate pipeline on
the example response does not succeed against the repository schema. -/
theorem mono_pipeline_claim_false :
    isOkE (agentJsonPipeline monoShortText parseRepositoryStructure) = false := by
  decide

/-- Amended claim C6: the pipeline on the example response fails, both
before and after recovery, because normalization leaves the value
unchanged (its repository-shape branch requires a `gitStatus` field, so
`type` stays `Mono`) and required fields such as `gitStatus` are
missing, so schema validation rejects it. -/
theorem mono_pipeline_fails :
    agentJsonPipeline monoShortText parseRepositoryStructure =
      .error "JSON parsing failed: Invalid enum value for repository type" ∧
    normalizeAgentJsonForSchemas monoShortVal = monoShortVal ∧
    monoShortVal.getF "gitStatus" = none ∧
    monoShortVal.getF "type" = some (.str "Mono") ∧
    isOkE (parseRepositoryStructure (normalizeAgentJsonForSchemas monoShortVal)) = false := by
  refine ⟨by decide, by decide, by decide, by decide, by decide⟩

/-- Counterexample to claim C10: a repository URL that contains a space
(a malformed URL by the claim's description) is accepted, not thrown
on, because the GitHub-URL pattern admits spaces in the repo segment. -/
theorem malformed_url_space_no_throw :
    extractRepoCoordinates (some "github.com/a/b c") none =
      .ok ⟨some "a", some "b c", "a/b c"⟩ := by
  decide

/-- Amended claim C10: for a provided non-empty repository URL the
context data is never consulted, and the call throws exactly when the
trimmed URL contains `github.com/` but the URL pattern does not match,
or contains neither `github.com/` nor a usable `owner/repo` shape (no
slash, a space, or an empty owner or repo segment). -/
theorem url_branch_characterization (u : String) (ctx : Option ContextData)
    (h : u ≠ "") :
    extractRepoCoordinates (some u) ctx = repoCoordsFromUrl (jsTrim u) ∧
    isOkE (repoCoordsFromUrl (jsTrim u)) = !urlThrows (jsTrim u) := by
  constructor
  · simp only [extractRepoCoordinates, if_pos h]
  · generalize jsTrim u = r
    unfold repoCoordsFromUrl urlThrows
    by_cases h1 : strIncludes "github.com/" r = true
    · rw [if_pos h1, if_pos h1]
      cases hm : ghPatMatch r.data <;> simp [isOkE]
    · rw [if_neg h1, if_neg h1]
      by_cases h2 : (r.data.contains '/' && !(r.data.contains ' ')) = true
      · rw [if_pos h2, if_pos h2]
        by_cases h3 : ((r.splitOn "/").getD 0 "" ≠ "" && (r.splitOn "/").getD 1 "" ≠ "") = true
        · rw [if_pos h3]
          rw [Bool.and_eq_true, decide_eq_true_eq, decide_eq_true_eq] at h3
          rw [beq_eq_false_iff_ne.mpr h3.1, beq_eq_false_iff_ne.mpr h3.2]
          rfl
        · rw [if_neg h3]
          have h5 : ((r.splitOn "/").getD 0 "" = "") ∨ ((r.splitOn "/").getD 1 "" = "") := by
            by_contra hc
            push_neg at hc
            apply h3
            rw [Bool.and_eq_true, decide_eq_true_eq, decide_eq_true_eq]
            exact ⟨hc.1, hc.2⟩
          rcases h5 with h5 | h5
          · rw [beq_iff_eq.mpr h5, Bool.true_or]
            rfl
          · rw [beq_iff_eq.mpr h5, Bool.or_true]
            rfl
      · rw [if_neg h2, if_neg h2]
        rfl

/-- Witness for the amended C10 at a concrete malformed URL. -/
theorem url_branch_characterization_witness :
    extractRepoCoordinates (some "bad url") none = repoCoordsFromUrl (jsTrim "bad url") ∧
    isOkE (repoCoordsFromUrl (jsTrim "bad url")) = !urlThrows (jsTrim "bad url") :=
  url_branch_characterization "bad url" none (by decide)

/-- Claim C5: the classification normalizers agree with the claim's
substring rules (trim, lower-case, hyphenate; `mono` to `monorepo`,
`multi` to `multi-project`, default `single-package`; `lib`, `app`,
`tool`, `config` or `cfg` heuristics, default `unknown`) and always
land in the closed enumeration sets; non-strings take the default. -/
theorem normalize_types_spec (v : Option Json) :
    normalizeRepoType v = repoTypeSpec v ∧
    normalizePackageType v = packageTypeSpec v ∧
    normalizeRepoType v ∈ allowedRepoTypes ∧
    normalizePackageType v ∈ allowedPackageTypes := by
  have e1 : normalizeRepoType v = repoTypeSpec v := by
    match v with
    | none => rfl
    | some .null | some (.bool _) | some (.num _ _) | some .arrNil
    | some (.arrCons _ _) | some .objNil | some (.objCons _ _ _) => rfl
    | some (.str s) =>
      show (if allowedRepoTypes.contains (canonRepo s) then canonRepo s else _) = _
      by_cases hc : allowedRepoTypes.contains (canonRepo s) = true
      · rw [if_pos hc]
        have hm : canonRepo s ∈ allowedRepoTypes := by
          simpa using hc
        rw [show repoTypeSpec (some (.str s)) =
          (if hasSub "mono".data (canonRepo s).data then "monorepo"
           else if hasSub "multi".data (canonRepo s).data then "multi-project"
           else "single-package") from rfl]
        rcases List.mem_cons.mp hm with h1 | hm
        · rw [h1]; decide
        rcases List.mem_cons.mp hm with h1 | hm
        · rw [h1]; decide
        rcases List.mem_cons.mp hm with h1 | hm
        · rw [h1]; decide
        · exact absurd hm (List.not_mem_nil _)
      · rw [if_neg hc]
        rfl
  have e2 : normalizePackageType v = packageTypeSpec v := by
    match v with
    | none => rfl
    | some .null | some (.bool _) | some (.num _ _) | some .arrNil
    | some (.arrCons _ _) | some .objNil | some (.objCons _ _ _) => rfl
    | some (.str s) =>
      show (if allowedPackageTypes.contains (canonPkg s) then canonPkg s else _) = _
      by_cases hc : allowedPackageTypes.contains (canonPkg s) = true
      · rw [if_pos hc]
        have hm : canonPkg s ∈ allowedPackageTypes := by
          simpa using hc
        rw [show packageTypeSpec (some (.str s)) =
          (if hasSub "lib".data (canonPkg s).data then "library"
           else if hasSub "app".data (canonPkg s).data then "app"
           else if hasSub "tool".data (canonPkg s).data then "tool"
           else if hasSub "config".data (canonPkg s).data || hasSub "cfg".data (canonPkg s).data then "config"
           else "unknown") from rfl]
        rcases List.mem_cons.mp hm with h1 | hm
        · rw [h1]; decide
        rcases List.mem_cons.mp hm with h1 | hm
        · rw [h1]; decide
        rcases List.mem_cons.mp hm with h1 | hm
        · rw [h1]; decide
        rcases List.mem_cons.mp hm with h1 | hm
        · rw [h1]; decide
        rcases List.mem_cons.mp hm with h1 | hm
        · rw [h1]; decide
        · exact absurd hm (List.not_mem_nil _)
      · rw [if_neg hc]
        rfl
  refine ⟨e1, e2, ?_, ?_⟩
  · rw [e1]
    match v with
    | none => exact (by decide : ("single-package" : String) ∈ allowedRepoTypes)
    | some .null | some (.bool _) | some (.num _ _) | some .arrNil
    | some (.arrCons _ _) | some .objNil | some (.objCons _ _ _) =>
      exact (by decide : ("single-package" : String) ∈ allowedRepoTypes)
    | some (.str s) =>
      rw [show repoTypeSpec (some (.str s)) =
        (if hasSub "mono".data (canonRepo s).data then "monorepo"
         else if hasSub "multi".data (canonRepo s).data then "multi-project"
         else "single-package") from rfl]
      split
      · decide
      split
      · decide
      · decide
  · rw [e2]
    match v with
    | none => exact (by decide : ("unknown" : String) ∈ allowedPackageTypes)
    | some .null | some (.bool _) | some (.num _ _) | some .arrNil
    | some (.arrCons _ _) | some .objNil | some (.objCons _ _ _) =>
      exact (by decide : ("unknown" : String) ∈ allowedPackageTypes)
    | some (.str s) =>
      rw [show packageTypeSpec (some (.str s)) =
        (if hasSub "lib".data (canonPkg s).data then "library"
         else if hasSub "app".data (canonPkg s).data then "app"
         else if hasSub "tool".data (canonPkg s).data then "tool"
         else if hasSub "config".data (canonPkg s).data || hasSub "cfg".data (canonPkg s).data then "config"
         else "unknown") from rfl]
      split
      · decide
      split
      · decide
      split
      · decide
      split
      · decide
      · decide

/-- Unfolding of the positional comma-removal pass on a cons cell. -/
theorem commaRemovedSpec_cons (c : Char) (rest : List Char) :
    commaRemovedSpec (c :: rest) =
      (if (c == ',') && closingNext rest then [] else [c]) ++ commaRemovedSpec rest := by
  unfold commaRemovedSpec
  rw [List.length_cons, List.range_succ_eq_map, List.filter_cons]
  have hq0 : commaQualifies (c :: rest) 0 = ((c == ',') && closingNext rest) := rfl
  have hfun : ((fun i => !commaQualifies (c :: rest) i) ∘ Nat.succ) =
      (fun i => !commaQualifies rest i) := funext (fun i => rfl)
  have hmapfil : List.filter (fun i => !commaQualifies (c :: rest) i)
      (List.map Nat.succ (List.range rest.length)) =
      List.map Nat.succ (List.filter (fun i => !commaQualifies rest i) (List.range rest.length)) := by
    rw [List.filter_map, hfun]
  have hmap : List.map (fun i => (c :: rest).getD i ' ')
      (List.map Nat.succ (List.filter (fun i => !commaQualifies rest i) (List.range rest.length))) =
      List.map (fun i => rest.getD i ' ')
        (List.filter (fun i => !commaQualifies rest i) (List.range rest.length)) := by
    rw [List.map_map]
    rfl
  cases hb : ((c == ',') && closingNext rest) with
  | false =>
    simp only [hq0, hb, Bool.not_false, if_true, List.map_cons, hmapfil, hmap]
    rfl
  | true =>
    simp only [hq0, hb, Bool.not_true, Bool.false_eq_true, if_false, hmapfil, hmap]
    rfl

/-- The global trailing-comma replacement coincides with the positional
description: exactly the commas followed, possibly across whitespace, by
a closing brace or bracket are removed. -/
theorem stripCommas_eq_spec (l : List Char) : stripCommas l = commaRemovedSpec l := by
  induction l with
  | nil => rfl
  | cons c rest ih =>
    rw [commaRemovedSpec_cons]
    unfold stripCommas
    by_cases h : ((c == ',') && closingNext rest) = true
    · rw [if_pos h, if_pos h, ih]
      rfl
    · rw [if_neg h, if_neg h, ih]
      rfl

/-- Claim C3: recovery removes exactly the commas that immediately
precede, possibly across whitespace, a closing brace or bracket, then
appends one closing brace per unmatched opening brace; on the two
specification examples it removes the trailing comma (and the result
parses as JSON) and appends exactly one closing brace, balancing the
counts.  It is one pass and total. -/
theorem recovery_matches_spec (s : String) :
    attemptJsonRecovery s = recoverySpec s ∧
    attemptJsonRecovery "\x7b\"a\":1,\x7d" = "\x7b\"a\":1\x7d" ∧
    isOkE (jsonParse (attemptJsonRecovery "\x7b\"a\":1,\x7d")) = true ∧
    attemptJsonRecovery "\x7b\"a\":\x7b\"b\":1\x7d" = "\x7b\"a\":\x7b\"b\":1\x7d\x7d" ∧
    (attemptJsonRecovery "\x7b\"a\":\x7b\"b\":1\x7d").data.count (Char.ofNat 123) =
      (attemptJsonRecovery "\x7b\"a\":\x7b\"b\":1\x7d").data.count (Char.ofNat 125) := by
  refine ⟨?_, by decide, by decide, by decide, by decide⟩
  unfold attemptJsonRecovery recoverySpec
  rw [stripCommas_eq_spec]
  by_cases h : (commaRemovedSpec s.data).count (Char.ofNat 125) <
      (commaRemovedSpec s.data).count (Char.ofNat 123)
  · rw [if_pos h]
  · rw [if_neg h]
    have hz : (commaRemovedSpec s.data).count (Char.ofNat 123) -
        (commaRemovedSpec s.data).count (Char.ofNat 125) = 0 := by
      omega
    simp only [hz, List.replicate_zero, List.append_nil]

/-- A found last index is witnessed by a member. -/
theorem lastIdxOf_mem (c : Char) (l : List Char) (q : Nat)
    (h : lastIdxOf c l = some q) : c ∈ l := by
  unfold lastIdxOf at h
  cases hr : l.reverse.findIdx? (· == c) with
  | none => rw [hr] at h; exact Option.noConfusion h
  | some i =>
    obtain ⟨hlt, hp, _⟩ := List.findIdx?_eq_some_iff_getElem.mp hr
    have he : l.reverse[i] = c := by simpa using hp
    have hmem : c ∈ l.reverse := he ▸ List.getElem_mem hlt
    simpa using hmem

/-- A successful braced capture exhibits an opening brace followed by a
closing brace. -/
theorem braceCapture_decomp (u m : List Char) (h : braceCapture u = some m) :
    ∃ b c, u = Char.ofNat 123 :: (b ++ Char.ofNat 125 :: c) := by
  cases u with
  | nil => exact Option.noConfusion h
  | cons c0 u' =>
    have h2 : (if c0 = Char.ofNat 123 then
        (match lastIdxOf (Char.ofNat 125) (c0 :: u') with
         | some q => if 1 ≤ q then some ((c0 :: u').take (q + 1)) else none
         | none => none) else none) = some m := h
    by_cases hc : c0 = Char.ofNat 123
    · rw [if_pos hc] at h2
      cases hq : lastIdxOf (Char.ofNat 125) (c0 :: u') with
      | none => rw [hq] at h2; exact Option.noConfusion h2
      | some q =>
        have hmem : Char.ofNat 125 ∈ c0 :: u' := lastIdxOf_mem _ _ _ hq
        have hmem' : Char.ofNat 125 ∈ u' := by
          rcases List.mem_cons.mp hmem with h1 | h1
          · exact absurd (h1.trans hc) (by decide)
          · exact h1
        obtain ⟨b, cc, hbc⟩ := List.mem_iff_append.mp hmem'
        exact ⟨b, cc, by rw [hc, hbc]⟩
    · rw [if_neg hc] at h2
      exact Option.noConfusion h2

/-- Under `noBracePair`, a braced capture fails on every suffix. -/
theorem noPair_braceCapture (l u : List Char) (hsuf : u <:+ l)
    (hnp : noBracePair l) : braceCapture u = none := by
  cases h : braceCapture u with
  | none => rfl
  | some m =>
    obtain ⟨b, c, hu⟩ := braceCapture_decomp u m h
    obtain ⟨pre, hpre⟩ := hsuf
    exact absurd (by rw [← hpre, hu]) (hnp pre b c)

/-- `noBracePair` passes to the tail. -/
theorem noPair_tail (c : Char) (l : List Char) (hnp : noBracePair (c :: l)) :
    noBracePair l := by
  intro a b cc hl
  exact hnp (c :: a) b cc (by rw [hl]; rfl)

/-- Skipping a colon or dash yields a suffix. -/
theorem skipColonDash_suffix (x : List Char) : skipColonDash x <:+ x := by
  cases x with
  | nil => exact List.suffix_rfl
  | cons c r =>
    show (if c = ':' ∨ c = '-' then r else c :: r) <:+ c :: r
    split
    · exact ⟨[c], rfl⟩
    · exact List.suffix_rfl

/-- Under `noBracePair`, the first fallback pattern's tail fails. -/
theorem pat1After_none (l t : List Char) (hsuf : t <:+ l)
    (hnp : noBracePair l) : pat1After t = none := by
  unfold pat1After
  apply noPair_braceCapture l _ _ hnp
  have h2 : t.dropWhile jsWs <:+ l := (List.dropWhile_suffix _).trans hsuf
  have h3 : (if ciStarts "json".data (t.dropWhile jsWs) then
      (t.dropWhile jsWs).drop 4 else t.dropWhile jsWs) <:+ l := by
    split
    · exact (List.drop_suffix _ _).trans h2
    · exact h2
  exact (List.dropWhile_suffix _).trans
    ((skipColonDash_suffix _).trans ((List.dropWhile_suffix _).trans h3))

/-- Under `noBracePair`, the first fallback pattern never matches. -/
theorem pat1Search_none (l : List Char) (hnp : noBracePair l) :
    pat1Search l = none := by
  induction l with
  | nil => rfl
  | cons c rest ih =>
    unfold pat1Search
    have hAt : pat1At (c :: rest) = none := by
      unfold pat1At
      cases hfm : pat1Words.filterMap (fun w =>
          if ciStarts w (c :: rest) then pat1After ((c :: rest).drop w.length) else none) with
      | nil => rfl
      | cons x xs =>
        have hx : x ∈ pat1Words.filterMap (fun w =>
            if ciStarts w (c :: rest) then pat1After ((c :: rest).drop w.length) else none) := by
          rw [hfm]; exact List.mem_cons_self _ _
        obtain ⟨w, _, hw⟩ := List.mem_filterMap.mp hx
        by_cases hci : ciStarts w (c :: rest) = true
        · rw [if_pos hci] at hw
          rw [pat1After_none (c :: rest) _ (List.drop_suffix _ _) hnp] at hw
          exact Option.noConfusion hw
        · rw [if_neg hci] at hw
          exact Option.noConfusion hw
    rw [hAt]
    exact ih (noPair_tail _ _ hnp)

/-- Under `noBracePair`, the second fallback pattern never matches. -/
theorem pat2Search_none (l : List Char) (hnp : noBracePair l) :
    pat2Search l = none := by
  induction l with
  | nil => rfl
  | cons c rest ih =>
    unfold pat2Search
    have hAt : pat2At (c :: rest) = none := by
      unfold pat2At
      have hb1 : braceCapture (((c :: rest).drop 3).dropWhile jsWs) = none :=
        noPair_braceCapture (c :: rest) _
          ((List.dropWhile_suffix _).trans (List.drop_suffix _ _)) hnp
      have hb2 : braceCapture (c :: rest) = none :=
        noPair_braceCapture (c :: rest) _ List.suffix_rfl hnp
      rw [hb1, ite_self]
      exact hb2
    rw [hAt]
    exact ih (noPair_tail _ _ hnp)

/-- Under `noBracePair`, the third fallback pattern never matches. -/
theorem pat3Search_none (l : List Char) (hnp : noBracePair l) :
    pat3Search l = none := by
  induction l with
  | nil => rfl
  | cons c rest ih =>
    unfold pat3Search
    have hAt : pat3At (c :: rest) = none := by
      unfold pat3At
      have hb1 : braceCapture (((c :: rest).drop 5).dropWhile jsWs) = none :=
        noPair_braceCapture (c :: rest) _
          ((List.dropWhile_suffix _).trans (List.drop_suffix _ _)) hnp
      split
      · exact hb1
      · rfl
    rw [hAt]
    exact ih (noPair_tail _ _ hnp)

/-- Under `noBracePair`, the whole fallback loop finds nothing. -/
theorem patsLoop_none (l : List Char) (hnp : noBracePair l) :
    patsLoop l = none := by
  unfold patsLoop
  rw [pat1Search_none l hnp, pat2Search_none l hnp, pat3Search_none l hnp]
  rfl

/-- Without an opening brace there is no brace pair. -/
theorem noPair_of_no_open (l : List Char)
    (h : firstIdxOf (Char.ofNat 123) l = none) : noBracePair l := by
  intro a b c hl
  have hmem : Char.ofNat 123 ∈ l := by
    rw [hl]
    exact List.mem_append_right _ (List.mem_cons_self _ _)
  have h2 := List.findIdx?_eq_none_iff.mp h _ hmem
  simp at h2

/-- Without a closing brace there is no brace pair. -/
theorem noPair_of_no_close (l : List Char)
    (h : lastIdxOf (Char.ofNat 125) l = none) : noBracePair l := by
  intro a b c hl
  have hmem : Char.ofNat 125 ∈ l.reverse := by
    rw [List.mem_reverse, hl]
    exact List.mem_append_right _
      (List.mem_cons_of_mem _ (List.mem_append_right _ (List.mem_cons_self _ _)))
  unfold lastIdxOf at h
  cases hr : l.reverse.findIdx? (· == Char.ofNat 125) with
  | some i => rw [hr] at h; exact Option.noConfusion h
  | none =>
    have h2 := List.findIdx?_eq_none_iff.mp hr _ hmem
    simp at h2

/-- When the last closing brace does not come after the first opening
brace there is no brace pair. -/
theorem noPair_of_order (l : List Char) (s e : Nat)
    (h1 : firstIdxOf (Char.ofNat 123) l = some s)
    (h2 : lastIdxOf (Char.ofNat 125) l = some e)
    (hse : ¬ s < e) : noBracePair l := by
  intro a b c hl
  subst hl
  obtain ⟨hsl, hps, hmin⟩ := List.findIdx?_eq_some_iff_getElem.mp h1
  have hlen : (a ++ Char.ofNat 123 :: (b ++ Char.ofNat 125 :: c)).length =
      a.length + 1 + b.length + 1 + c.length := by
    simp
    omega
  have haop : ∀ hh : a.length < (a ++ Char.ofNat 123 :: (b ++ Char.ofNat 125 :: c)).length,
      (a ++ Char.ofNat 123 :: (b ++ Char.ofNat 125 :: c))[a.length] = Char.ofNat 123 := by
    intro hh
    rw [List.getElem_append_right (Nat.le_refl _)]
    simp
  have hsa : s ≤ a.length := by
    by_contra hgt
    push_neg at hgt
    have := hmin a.length hgt
    rw [haop (by omega)] at this
    simp at this
  -- the closing brace sits at position k
  have hclo : ∀ hh : a.length + 1 + b.length <
      (a ++ Char.ofNat 123 :: (b ++ Char.ofNat 125 :: c)).length,
      (a ++ Char.ofNat 123 :: (b ++ Char.ofNat 125 :: c))[a.length + 1 + b.length] =
        Char.ofNat 125 := by
    intro hh
    rw [List.getElem_append_right (by omega : a.length ≤ a.length + 1 + b.length)]
    have hidx : a.length + 1 + b.length - a.length = b.length + 1 := by omega
    simp only [hidx]
    rw [List.getElem_cons_succ]
    rw [List.getElem_append_right (Nat.le_refl _)]
    simp
  unfold lastIdxOf at h2
  cases hr : (a ++ Char.ofNat 123 :: (b ++ Char.ofNat 125 :: c)).reverse.findIdx?
      (· == Char.ofNat 125) with
  | none => rw [hr] at h2; exact Option.noConfusion h2
  | some i =>
    rw [hr] at h2
    have he : e = (a ++ Char.ofNat 123 :: (b ++ Char.ofNat 125 :: c)).length - 1 - i :=
      (Option.some.injEq _ _ ▸ h2).symm
    obtain ⟨hil, hpi, hmini⟩ := List.findIdx?_eq_some_iff_getElem.mp hr
    rw [List.length_reverse] at hil
    -- the reverse position of the closing brace
    have hrk : (a ++ Char.ofNat 123 :: (b ++ Char.ofNat 125 :: c)).length - 1 -
        (a.length + 1 + b.length) < (a ++ Char.ofNat 123 :: (b ++ Char.ofNat 125 :: c)).reverse.length := by
      rw [List.length_reverse]
      omega
    have hrev : (a ++ Char.ofNat 123 :: (b ++ Char.ofNat 125 :: c)).reverse[
        (a ++ Char.ofNat 123 :: (b ++ Char.ofNat 125 :: c)).length - 1 -
          (a.length + 1 + b.length)] = Char.ofNat 125 := by
      rw [List.getElem_reverse]
      have hix : (a ++ Char.ofNat 123 :: (b ++ Char.ofNat 125 :: c)).length - 1 -
          ((a ++ Char.ofNat 123 :: (b ++ Char.ofNat 125 :: c)).length - 1 -
            (a.length + 1 + b.length)) = a.length + 1 + b.length := by
        omega
      simp only [hix]
      exact hclo (by omega)
    have hile : i ≤ (a ++ Char.ofNat 123 :: (b ++ Char.ofNat 125 :: c)).length - 1 -
        (a.length + 1 + b.length) := by
      by_contra hgt
      push_neg at hgt
      have := hmini _ hgt
      rw [hrev] at this
      simp at this
    omega

/-- A failed brace-boundary branch means no brace pair at all. -/
theorem braceClause_none_noPair (t : String) (h : braceClause t = none) :
    noBracePair t.data := by
  unfold braceClause at h
  cases h1 : firstIdxOf (Char.ofNat 123) t.data with
  | none => exact noPair_of_no_open _ h1
  | some s =>
    cases h2 : lastIdxOf (Char.ofNat 125) t.data with
    | none => exact noPair_of_no_close _ h2
    | some e =>
      rw [h1, h2] at h
      have h' : (if s < e then
          some (String.mk ((t.data.drop s).take (e + 1 - s))) else none) = none := h
      have hse : ¬ s < e := by
        by_contra hlt
        rw [if_pos hlt] at h'
        exact Option.noConfusion h'
      exact noPair_of_order _ s e h1 h2 hse

/-- The brace-boundary clause restates the brace-boundary branch. -/
theorem braceClause_eq (t : String) :
    braceClause t = (extractBraces t.data).map String.mk := by
  unfold braceClause extractBraces
  cases h1 : firstIdxOf (Char.ofNat 123) t.data with
  | none => rfl
  | some s =>
    cases h2 : lastIdxOf (Char.ofNat 125) t.data with
    | none => rfl
    | some e =>
      by_cases hse : s < e
      · simp [hse]
      · simp [hse]

/-- The extraction tail (brace branch, fallback loop, identity) agrees
with the claim's clause chain. -/
theorem afterFence_eq (t : String) :
    String.mk (extractAfterFence t.data) =
      (match braceClause t with
       | some r => r
       | none =>
         match fallbackClause t with
         | some r => r
         | none => t) := by
  cases hb : extractBraces t.data with
  | some sub =>
    have hbc : braceClause t = some (String.mk sub) := by
      rw [braceClause_eq, hb]
      rfl
    unfold extractAfterFence
    rw [hb, hbc]
  | none =>
    have hbc : braceClause t = none := by
      rw [braceClause_eq, hb]
      rfl
    unfold extractAfterFence
    rw [hb, hbc]
    cases hp : patsLoop t.data with
    | some m =>
      unfold fallbackClause
      rw [hp]
      rfl
    | none =>
      unfold fallbackClause
      rw [hp]
      rfl

/-- Claim C2: extraction follows the claimed priority order (fenced body
exceeding 10 characters once trimmed; else first-to-last brace
substring; else the first fallback match exceeding 10 once trimmed;
else the input unchanged), it is total, and, moreover, whenever the
brace-boundary clause fails the fallback patterns cannot match either,
so the input is returned unchanged at that point. -/
theorem extraction_matches_spec (t : String) :
    extractJsonFromText t = extractionSpec t ∧
    (braceClause t = none → fallbackClause t = none) := by
  constructor
  · unfold extractJsonFromText extractionSpec fenceClause
    cases hf : fenceSearch t.data with
    | none => exact afterFence_eq t
    | some cap =>
      show (if 10 < (jsTrimL cap).length then String.mk (jsTrimL cap)
            else String.mk (extractAfterFence t.data)) =
        (match (if 10 < (jsTrimL cap).length then some (String.mk (jsTrimL cap)) else none) with
         | some r => r
         | none =>
           match braceClause t with
           | some r => r
           | none =>
             match fallbackClause t with
             | some r => r
             | none => t)
      by_cases hl : 10 < (jsTrimL cap).length
      · rw [if_pos hl, if_pos hl]
      · rw [if_neg hl, if_neg hl]
        exact afterFence_eq t
  · intro h
    unfold fallbackClause
    rw [patsLoop_none t.data (braceClause_none_noPair t h)]
    rfl

/-- Witness for C2 at a concrete input with no braces: the fallback
clause indeed finds nothing and the text is returned unchanged. -/
theorem extraction_matches_spec_witness :
    extractJsonFromText "no json here" = extractionSpec "no json here" ∧
    fallbackClause "no json here" = none :=
  ⟨(extraction_matches_spec "no json here").1,
   (extraction_matches_spec "no json here").2 (by decide)⟩

/-- The found-success unfolding of the retry characterization. -/
theorem retrySpecFrom_found {α : Type} (attempt : Nat → Except JsVal α) (idx n k : Nat)
    (h : (List.range' idx n).find? (fun i => isOkE (attempt i)) = some k) :
    retrySpecFrom attempt idx n =
      ⟨specResult (attempt k), List.range' idx (k + 1 - idx),
        (List.range' idx (k - idx)).map (mkNotif attempt)⟩ := by
  unfold retrySpecFrom
  rw [h]

/-- The no-success unfolding of the retry characterization. -/
theorem retrySpecFrom_notFound {α : Type} (attempt : Nat → Except JsVal α) (idx n : Nat)
    (h : (List.range' idx n).find? (fun i => isOkE (attempt i)) = none) :
    retrySpecFrom attempt idx n =
      ⟨.error (toErrorJs (errAt attempt (idx + n - 1))), List.range' idx n,
        (List.range' idx (n - 1)).map (mkNotif attempt)⟩ := by
  unfold retrySpecFrom
  rw [h]

/-- The retry loop from any start index follows the first-success
characterization. -/
theorem retryAux_spec {α : Type} (attempt : Nat → Except JsVal α) :
    ∀ n idx, retryAux attempt idx (n + 1) = retrySpecFrom attempt idx (n + 1) := by
  intro n
  induction n with
  | zero =>
    intro idx
    cases ha : attempt idx with
    | ok v =>
      rw [retrySpecFrom_found attempt idx 1 idx
        (by rw [List.range'_one]; exact List.find?_cons_of_pos _ (by rw [ha]; rfl))]
      have hL : retryAux attempt idx 1 = ⟨.ok v, [idx], []⟩ := by
        rw [retryAux, ha]
      rw [hL, ha]
      have h1 : idx + 1 - idx = 1 := by omega
      have h2 : idx - idx = 0 := by omega
      rw [h1, h2, List.range'_one]
      rfl
    | error e =>
      rw [retrySpecFrom_notFound attempt idx 1
        (by rw [List.range'_one]
            rw [List.find?_cons_of_neg _ (by rw [ha]; simp [isOkE])]
            rfl)]
      have hL : retryAux attempt idx 1 = ⟨.error (toErrorJs e), [idx], []⟩ := by
        rw [retryAux, ha]
      rw [hL]
      have h1 : idx + 1 - 1 = idx := by omega
      rw [h1, List.range'_one]
      unfold errAt
      rw [ha]
      rfl
  | succ m ih =>
    intro idx
    cases ha : attempt idx with
    | ok v =>
      rw [retrySpecFrom_found attempt idx (m + 1 + 1) idx
        (by rw [List.range'_succ]; exact List.find?_cons_of_pos _ (by rw [ha]; rfl))]
      have hL : retryAux attempt idx (m + 1 + 1) = ⟨.ok v, [idx], []⟩ := by
        rw [retryAux, ha]
      rw [hL, ha]
      have h1 : idx + 1 - idx = 1 := by omega
      have h2 : idx - idx = 0 := by omega
      rw [h1, h2, List.range'_one]
      rfl
    | error e =>
      have hstep : retryAux attempt idx (m + 1 + 1) =
          ⟨(retryAux attempt (idx + 1) (m + 1)).result,
            idx :: (retryAux attempt (idx + 1) (m + 1)).calls,
            ⟨idx, getErrorMessage e, "warning"⟩ :: (retryAux attempt (idx + 1) (m + 1)).notifs⟩ := by
        rw [retryAux, ha]
      have hnotif : mkNotif attempt idx = ⟨idx, getErrorMessage e, "warning"⟩ := by
        unfold mkNotif errAt
        rw [ha]
      have hcons : (List.range' idx (m + 1 + 1)).find? (fun i => isOkE (attempt i)) =
          (List.range' (idx + 1) (m + 1)).find? (fun i => isOkE (attempt i)) := by
        rw [List.range'_succ]
        exact List.find?_cons_of_neg _ (by rw [ha]; simp [isOkE])
      cases hfind : (List.range' (idx + 1) (m + 1)).find? (fun i => isOkE (attempt i)) with
      | some k =>
        have hk : idx + 1 ≤ k := by
          have := List.mem_range'_1.mp (List.mem_of_find?_eq_some hfind)
          omega
        rw [hstep, ih (idx + 1), retrySpecFrom_found attempt (idx + 1) (m + 1) k hfind,
          retrySpecFrom_found attempt idx (m + 1 + 1) k (hcons.trans hfind)]
        show (⟨specResult (attempt k),
            idx :: List.range' (idx + 1) (k + 1 - (idx + 1)),
            ⟨idx, getErrorMessage e, "warning"⟩ ::
              (List.range' (idx + 1) (k - (idx + 1))).map (mkNotif attempt)⟩ : RetryTrace α) =
          ⟨specResult (attempt k), List.range' idx (k + 1 - idx),
            (List.range' idx (k - idx)).map (mkNotif attempt)⟩
        have hd1 : k + 1 - (idx + 1) = (k - (idx + 1)) + 1 := by omega
        have hd2 : k + 1 - idx = (k - (idx + 1)) + 1 + 1 := by omega
        have hd3 : k - idx = (k - (idx + 1)) + 1 := by omega
        rw [hd1, hd2, hd3, List.range'_succ idx (k - (idx + 1) + 1) 1,
          List.range'_succ idx (k - (idx + 1)) 1, List.map_cons, hnotif]
      | none =>
        rw [hstep, ih (idx + 1), retrySpecFrom_notFound attempt (idx + 1) (m + 1) hfind,
          retrySpecFrom_notFound attempt idx (m + 1 + 1) (hcons.trans hfind)]
        show (⟨.error (toErrorJs (errAt attempt (idx + 1 + (m + 1) - 1))),
            idx :: List.range' (idx + 1) (m + 1),
            ⟨idx, getErrorMessage e, "warning"⟩ ::
              (List.range' (idx + 1) (m + 1 - 1)).map (mkNotif attempt)⟩ : RetryTrace α) =
          ⟨.error (toErrorJs (errAt attempt (idx + (m + 1 + 1) - 1))), List.range' idx (m + 1 + 1),
            (List.range' idx (m + 1 + 1 - 1)).map (mkNotif attempt)⟩
        have hc1 : idx + 1 + (m + 1) - 1 = idx + (m + 1 + 1) - 1 := by omega
        have hc2 : m + 1 - 1 = m := by omega
        have hc3 : m + 1 + 1 - 1 = m + 1 := by omega
        rw [hc1, hc2, hc3, List.range'_succ idx (m + 1) 1, List.range'_succ idx m 1,
          List.map_cons, hnotif]

/-- Claim C4: the retry wrapper invokes the attempt strictly
sequentially at most `maxAttempts` times, returns the first success,
emits exactly one warning notification (with attempt index and error
message) after each non-final failure and none after the final one, and
when every attempt fails it re-raises the last error wrapped as an
`Error` after exactly `maxAttempts` attempts. -/
theorem withRetryAndAlerts_spec {α : Type} (maxAttempts : Nat)
    (attempt : Nat → Except JsVal α) (h : 1 ≤ maxAttempts) :
    withRetryAndAlerts maxAttempts attempt = retrySpec attempt maxAttempts := by
  obtain ⟨n, rfl⟩ : ∃ n, maxAttempts = n + 1 := ⟨maxAttempts - 1, by omega⟩
  exact retryAux_spec attempt n 1

/-- Witness for C4 at the specification's example (fails twice, then
succeeds, with a budget of 3): the value is returned and exactly two
warning notifications are emitted. -/
theorem withRetryAndAlerts_spec_witness :
    withRetryAndAlerts 3 attemptTwiceFails = retrySpec attemptTwiceFails 3 ∧
    (withRetryAndAlerts 3 attemptTwiceFails).result = .ok 42 ∧
    (withRetryAndAlerts 3 attemptTwiceFails).calls = [1, 2, 3] ∧
    (withRetryAndAlerts 3 attemptTwiceFails).notifs =
      [⟨1, "boom 1", "warning"⟩, ⟨2, "boom 2", "warning"⟩] :=
  ⟨withRetryAndAlerts_spec 3 attemptTwiceFails (by decide), by decide, by decide, by decide⟩

set_option maxRecDepth 40000 in
/-- Counterexample to claim C1: on a complete repository payload whose
only defect is the spelling `Mono`, the extraction gate passes and a
parse-normalize-validate pipeline would succeed (normalization repairs
the enum), yet `parseAgentJsonResponse` fails -- it never normalizes. -/
theorem parse_normalization_claim_false :
    isOkE (parseAgentJsonResponse monoFullText parseRepositoryStructure true) = false ∧
    gateBad (extractJsonFromText monoFullText) = false ∧
    isOkE (parseNormalizeValidate parseRepositoryStructure (extractJsonFromText monoFullText)) =
      true := by
  refine ⟨by decide, by decide, by decide⟩

/-- Amended claim C1: the parser first runs extraction and fails with the
extraction-quality error exactly on the gate (shorter than 10, the
placeholder, or no opening brace); otherwise it JSON-parses and
schema-validates without a normalization pass, returning the value on
success; on failure with recovery disabled it re-raises the original
error; with recovery enabled it applies exactly one recovery pass and
re-parses and re-validates, returning a later success; and when that
also fails it raises an error carrying the original error message (the
recovery error is only logged, not carried). -/
theorem parseAgentJsonResponse_spec {α : Type} (text : String)
    (schemaParse : Json → Except String α) (recover : Bool) :
    (gateBad (extractJsonFromText text) = true →
      parseAgentJsonResponse text schemaParse recover = .error (gateErrMsg text)) ∧
    (gateBad (extractJsonFromText text) = false →
      ∀ v, noNormPipe schemaParse (extractJsonFromText text) = .ok v →
        parseAgentJsonResponse text schemaParse recover = .ok v) ∧
    (gateBad (extractJsonFromText text) = false →
      ∀ e, noNormPipe schemaParse (extractJsonFromText text) = .error e →
        recover = false →
        parseAgentJsonResponse text schemaParse recover = .error e) ∧
    (gateBad (extractJsonFromText text) = false →
      ∀ e v, noNormPipe schemaParse (extractJsonFromText text) = .error e →
        recover = true →
        noNormPipe schemaParse (attemptJsonRecovery (extractJsonFromText text)) = .ok v →
        parseAgentJsonResponse text schemaParse recover = .ok v) ∧
    (gateBad (extractJsonFromText text) = false →
      ∀ e e2, noNormPipe schemaParse (extractJsonFromText text) = .error e →
        recover = true →
        noNormPipe schemaParse (attemptJsonRecovery (extractJsonFromText text)) = .error e2 →
        parseAgentJsonResponse text schemaParse recover =
          .error ("JSON parsing failed after recovery attempt. Original: " ++ e)) := by
  unfold noNormPipe
  refine ⟨?_, ?_, ?_, ?_, ?_⟩
  · intro hg
    simp only [parseAgentJsonResponse, hg, if_true]
  · intro hg v hok
    simp only [parseAgentJsonResponse, hg, Bool.false_eq_true, if_false, hok]
  · intro hg e herr hrec
    simp only [parseAgentJsonResponse, hg, Bool.false_eq_true, if_false, herr, hrec,
      Bool.not_false, if_true]
  · intro hg e v herr hrec hok2
    simp only [parseAgentJsonResponse, hg, Bool.false_eq_true, if_false, herr, hrec,
      Bool.not_true, Bool.false_eq_true, if_false, hok2]
  · intro hg e e2 herr hrec herr2
    simp only [parseAgentJsonResponse, hg, Bool.false_eq_true, if_false, herr, hrec,
      Bool.not_true, Bool.false_eq_true, if_false, herr2]

set_option maxRecDepth 40000 in
/-- Witness for the amended C1: on the complete `Mono` payload both the
original attempt and the recovery attempt fail validation, and the
raised error carries the original message. -/
theorem parseAgentJsonResponse_spec_witness :
    parseAgentJsonResponse monoFullText parseRepositoryStructure true =
      .error ("JSON parsing failed after recovery attempt. Original: " ++
        "Invalid enum value for repository type") :=
  (parseAgentJsonResponse_spec monoFullText parseRepositoryStructure true).2.2.2.2
    (by decide) "Invalid enum value for repository type"
    "Invalid enum value for repository type" (by decide) rfl (by decide)

/-- Building an object and reading its fields back are inverse. -/
theorem asFields_mkObj (l : List (String × Json)) : (Json.mkObj l).asFields = some l := by
  induction l with
  | nil => rfl
  | cons kv rest ih =>
    show (Json.objCons kv.1 kv.2 (Json.mkObj rest)).asFields = some (kv :: rest)
    unfold Json.asFields
    rw [ih]
    rfl

/-- Building an array and reading its items back are inverse. -/
theorem asList_mkArr (l : List Json) : (Json.mkArr l).asList = some l := by
  induction l with
  | nil => rfl
  | cons x rest ih =>
    show (Json.arrCons x (Json.mkArr rest)).asList = some (x :: rest)
    unfold Json.asList
    rw [ih]
    rfl

/-- An object view rebuilds to the same value. -/
theorem mkObj_asFields (j : Json) (fs : List (String × Json))
    (h : j.asFields = some fs) : Json.mkObj fs = j := by
  induction j generalizing fs with
  | objNil =>
    have : fs = [] := by
      simpa [Json.asFields] using h.symm
    rw [this]
    rfl
  | objCons k v tl ihv ihtl =>
    unfold Json.asFields at h
    cases htl : tl.asFields with
    | none => rw [htl] at h; exact Option.noConfusion h
    | some fs' =>
      rw [htl] at h
      have hfs : fs = (k, v) :: fs' := by
        simpa using h.symm
      rw [hfs]
      show Json.objCons k v (Json.mkObj fs') = Json.objCons k v tl
      rw [ihtl fs' htl]
  | null => exact Option.noConfusion h
  | bool b => exact Option.noConfusion h
  | num m e => exact Option.noConfusion h
  | str s => exact Option.noConfusion h
  | arrNil => exact Option.noConfusion h
  | arrCons hd tl ihh iht => exact Option.noConfusion h

/-- Rewriting a field with its current value changes nothing. -/
theorem putField_self (k : String) (v : Json) (l : List (String × Json))
    (h : l.lookup k = some v) : putField k v l = l := by
  induction l with
  | nil => exact Option.noConfusion h
  | cons kv rest ih =>
    obtain ⟨k', v'⟩ := kv
    rw [List.lookup_cons] at h
    unfold putField
    by_cases hk : k' = k
    · rw [if_pos hk]
      have hbeq : (k == k') = true := by
        rw [hk]
        exact beq_self_eq_true k
      rw [hbeq] at h
      have : v' = v := by simpa using h
      rw [this]
    · rw [if_neg hk]
      have hbeq : (k == k') = false := by
        refine beq_eq_false_iff_ne.mpr ?_
        exact fun hc => hk hc.symm
      rw [hbeq] at h
      rw [ih h]

/-- Setting a field to its current value changes nothing. -/
theorem setF_self (j : Json) (k : String) (v : Json)
    (h : j.getF k = some v) : j.setF k v = j := by
  unfold Json.getF at h
  unfold Json.setF
  cases hf : j.asFields with
  | none =>
    rfl
  | some fs =>
    rw [hf] at h
    have h' : fs.lookup k = some v := by simpa using h
    show Json.mkObj (putField k v fs) = j
    rw [putField_self k v fs h', mkObj_asFields j fs hf]

/-- Enumeration roundtrip for package types. -/
theorem parsePackageTy_toStr (t : PackageTy) : parsePackageTy (.str t.toStr) = .ok t := by
  cases t <;> rfl

/-- Enumeration roundtrip for repository types. -/
theorem parseRepoTy_toStr (t : RepoTy) : parseRepoTy (.str t.toStr) = .ok t := by
  cases t <;> rfl

/-- Enumeration roundtrip for comments levels. -/
theorem parseCommentsLevel_toStr (t : CommentsLevel) :
    parseCommentsLevel (.str t.toStr) = .ok t := by
  cases t <;> rfl

/-- Enumeration roundtrip for complexity levels. -/
theorem parseComplexityLevel_toStr (t : ComplexityLevel) :
    parseComplexityLevel (.str t.toStr) = .ok t := by
  cases t <;> rfl

/-- Enumeration roundtrip for maturity levels. -/
theorem parseMaturityLevel_toStr (t : MaturityLevel) :
    parseMaturityLevel (.str t.toStr) = .ok t := by
  cases t <;> rfl

/-- Enumeration roundtrip for maintainability levels. -/
theorem parseMaintainabilityLevel_toStr (t : MaintainabilityLevel) :
    parseMaintainabilityLevel (.str t.toStr) = .ok t := by
  cases t <;> rfl

/-- Array roundtrip: parsing an encoded list element-wise. -/
theorem zListGo_enc {α : Type} (p : Json → Except String α) (enc : α → Json)
    (h : ∀ x, p (enc x) = .ok x) : ∀ l : List α, zListGo p (l.map enc) = .ok l := by
  intro l
  induction l with
  | nil => rfl
  | cons x rest ih =>
    show zListGo p (enc x :: rest.map enc) = .ok (x :: rest)
    unfold zListGo
    rw [h x]
    simp only [bind, Except.bind]
    rw [ih]

/-- Array roundtrip: parsing an encoded list element-wise. -/
theorem zList_enc {α : Type} (p : Json → Except String α) (enc : α → Json)
    (l : List α) (h : ∀ x, p (enc x) = .ok x) :
    zList p (Json.mkArr (l.map enc)) = .ok l := by
  unfold zList
  rw [asList_mkArr]
  show zListGo p (l.map enc) = .ok l
  exact zListGo_enc p enc h l

/-- Array roundtrip for string lists. -/
theorem zList_str (l : List String) :
    zList zString (Json.mkArr (l.map Json.str)) = .ok l :=
  zList_enc zString Json.str l (fun _ => rfl)

/-- Record roundtrip for string maps. -/
theorem zStrMapGo_enc :
    ∀ l : List (String × String),
      zStrMapGo (l.map (fun kv => (kv.1, Json.str kv.2))) = .ok l := by
  intro l
  induction l with
  | nil => rfl
  | cons kv rest ih =>
    show zStrMapGo ((kv.1, Json.str kv.2) :: rest.map (fun kv => (kv.1, Json.str kv.2))) =
      .ok (kv :: rest)
    unfold zStrMapGo
    simp only [zString, bind, Except.bind]
    rw [ih]

/-- Record roundtrip for string maps. -/
theorem zStrMap_enc (l : List (String × String)) :
    zStrMap (Json.mkObj (l.map (fun kv => (kv.1, Json.str kv.2)))) = .ok l := by
  unfold zStrMap
  rw [asFields_mkObj]
  show zStrMapGo (l.map (fun kv => (kv.1, Json.str kv.2))) = .ok l
  exact zStrMapGo_enc l

/-- Nullable-string roundtrip. -/
theorem zStringNullable_enc (o : Option String) : zStringNullable (encOptStr o) = .ok o := by
  cases o <;> rfl

/-- Schema roundtrip for `GitStatus`. -/
theorem parseGitStatus_toJ (x : GitStatus) : parseGitStatus x.toJ = .ok x := by
  simp [parseGitStatus, GitStatus.toJ, asFields_mkObj, reqField, List.lookup, bind, Except.bind, zString, zBool, zNum, zStringNullable_enc]

/-- Schema roundtrip for `PackageInfo`. -/
theorem parsePackageInfo_toJ (x : PackageInfo) : parsePackageInfo x.toJ = .ok x := by
  simp [parsePackageInfo, PackageInfo.toJ, asFields_mkObj, reqField, List.lookup, bind, Except.bind, zString, zBool, zNum, zStringNullable_enc, parsePackageTy_toStr]

/-- Array roundtrip for `PackageInfo` lists. -/
theorem zList_packageInfo (l : List PackageInfo) :
    zList parsePackageInfo (Json.mkArr (l.map PackageInfo.toJ)) = .ok l :=
  zList_enc _ _ l parsePackageInfo_toJ

/-- Schema roundtrip for `RepoStructure`. -/
theorem parseRepoStructure_toJ (x : RepoStructure) : parseRepoStructure x.toJ = .ok x := by
  simp [parseRepoStructure, RepoStructure.toJ, asFields_mkObj, reqField, List.lookup, bind, Except.bind, zString, zBool, zNum, zStringNullable_enc, zList_packageInfo, zList_str]

/-- Schema roundtrip for `LanguageStats`. -/
theorem parseLanguageStats_toJ (x : LanguageStats) : parseLanguageStats x.toJ = .ok x := by
  simp [parseLanguageStats, LanguageStats.toJ, asFields_mkObj, reqField, List.lookup, bind, Except.bind, zString, zBool, zNum, zStringNullable_enc, zList_str]

/-- Array roundtrip for `LanguageStats` lists. -/
theorem zList_languageStats (l : List LanguageStats) :
    zList parseLanguageStats (Json.mkArr (l.map LanguageStats.toJ)) = .ok l :=
  zList_enc _ _ l parseLanguageStats_toJ

/-- Schema roundtrip for `RepositoryStructure`. -/
theorem parseRepositoryStructure_toJ (x : RepositoryStructure) : parseRepositoryStructure x.toJ = .ok x := by
  simp [parseRepositoryStructure, RepositoryStructure.toJ, asFields_mkObj, reqField, List.lookup, bind, Except.bind, zString, zBool, zNum, zStringNullable_enc, parseRepoTy_toStr, parseGitStatus_toJ, parseRepoStructure_toJ, zList_languageStats]

/-- Schema roundtrip for `ModuleInfo`. -/
theorem parseModuleInfo_toJ (x : ModuleInfo) : parseModuleInfo x.toJ = .ok x := by
  simp [parseModuleInfo, ModuleInfo.toJ, asFields_mkObj, reqField, List.lookup, bind, Except.bind, zString, zBool, zNum, zStringNullable_enc]

/-- Array roundtrip for `ModuleInfo` lists. -/
theorem zList_moduleInfo (l : List ModuleInfo) :
    zList parseModuleInfo (Json.mkArr (l.map ModuleInfo.toJ)) = .ok l :=
  zList_enc _ _ l parseModuleInfo_toJ

/-- Schema roundtrip for `InternalDependency`. -/
theorem parseInternalDependency_toJ (x : InternalDependency) : parseInternalDependency x.toJ = .ok x := by
  simp [parseInternalDependency, InternalDependency.toJ, asFields_mkObj, reqField, List.lookup, bind, Except.bind, zString, zBool, zNum, zStringNullable_enc]

/-- Array roundtrip for `InternalDependency` lists. -/
theorem zList_internalDependency (l : List InternalDependency) :
    zList parseInternalDependency (Json.mkArr (l.map InternalDependency.toJ)) = .ok l :=
  zList_enc _ _ l parseInternalDependency_toJ

/-- Schema roundtrip for `KeyLibrary`. -/
theorem parseKeyLibrary_toJ (x : KeyLibrary) : parseKeyLibrary x.toJ = .ok x := by
  simp [parseKeyLibrary, KeyLibrary.toJ, asFields_mkObj, reqField, List.lookup, bind, Except.bind, zString, zBool, zNum, zStringNullable_enc]

/-- Array roundtrip for `KeyLibrary` lists. -/
theorem zList_keyLibrary (l : List KeyLibrary) :
    zList parseKeyLibrary (Json.mkArr (l.map KeyLibrary.toJ)) = .ok l :=
  zList_enc _ _ l parseKeyLibrary_toJ

/-- Schema roundtrip for `DependenciesAnalysis`. -/
theorem parseDependenciesAnalysis_toJ (x : DependenciesAnalysis) : parseDependenciesAnalysis x.toJ = .ok x := by
  simp [parseDependenciesAnalysis, DependenciesAnalysis.toJ, asFields_mkObj, reqField, List.lookup, bind, Except.bind, zString, zBool, zNum, zStringNullable_enc, zList_internalDependency, zStrMap_enc, zList_keyLibrary]

/-- Schema roundtrip for `ArchitectureAnalysis`. -/
theorem parseArchitectureAnalysis_toJ (x : ArchitectureAnalysis) : parseArchitectureAnalysis x.toJ = .ok x := by
  simp [parseArchitectureAnalysis, ArchitectureAnalysis.toJ, asFields_mkObj, reqField, List.lookup, bind, Except.bind, zString, zBool, zNum, zStringNullable_enc, zList_str, zList_moduleInfo, parseDependenciesAnalysis_toJ]

/-- Schema roundtrip for `DocumentationAnalysis`. -/
theorem parseDocumentationAnalysis_toJ (x : DocumentationAnalysis) : parseDocumentationAnalysis x.toJ = .ok x := by
  simp [parseDocumentationAnalysis, DocumentationAnalysis.toJ, asFields_mkObj, reqField, List.lookup, bind, Except.bind, zString, zBool, zNum, zStringNullable_enc, parseCommentsLevel_toStr]

/-- Schema roundtrip for `CodeQualityAnalysis`. -/
theorem parseCodeQualityAnalysis_toJ (x : CodeQualityAnalysis) : parseCodeQualityAnalysis x.toJ = .ok x := by
  simp [parseCodeQualityAnalysis, CodeQualityAnalysis.toJ, asFields_mkObj, reqField, List.lookup, bind, Except.bind, zString, zBool, zNum, zStringNullable_enc, zList_str, parseDocumentationAnalysis_toJ]

/-- Schema roundtrip for `FrameworkInfo`. -/
theorem parseFrameworkInfo_toJ (x : FrameworkInfo) : parseFrameworkInfo x.toJ = .ok x := by
  simp [parseFrameworkInfo, FrameworkInfo.toJ, asFields_mkObj, reqField, List.lookup, bind, Except.bind, zString, zBool, zNum, zStringNullable_enc, zList_str]

/-- Array roundtrip for `FrameworkInfo` lists. -/
theorem zList_frameworkInfo (l : List FrameworkInfo) :
    zList parseFrameworkInfo (Json.mkArr (l.map FrameworkInfo.toJ)) = .ok l :=
  zList_enc _ _ l parseFrameworkInfo_toJ

/-- Schema roundtrip for `CodebaseAnalysis`. -/
theorem parseCodebaseAnalysis_toJ (x : CodebaseAnalysis) : parseCodebaseAnalysis x.toJ = .ok x := by
  simp [parseCodebaseAnalysis, CodebaseAnalysis.toJ, asFields_mkObj, reqField, List.lookup, bind, Except.bind, zString, zBool, zNum, zStringNullable_enc, parseArchitectureAnalysis_toJ, parseCodeQualityAnalysis_toJ, zList_frameworkInfo]

/-- Schema roundtrip for `BuildAttempt`. -/
theorem parseBuildAttempt_toJ (x : BuildAttempt) : parseBuildAttempt x.toJ = .ok x := by
  simp [parseBuildAttempt, BuildAttempt.toJ, asFields_mkObj, reqField, List.lookup, bind, Except.bind, zString, zBool, zNum, zStringNullable_enc, zList_str]

/-- Array roundtrip for `BuildAttempt` lists. -/
theorem zList_buildAttempt (l : List BuildAttempt) :
    zList parseBuildAttempt (Json.mkArr (l.map BuildAttempt.toJ)) = .ok l :=
  zList_enc _ _ l parseBuildAttempt_toJ

/-- Schema roundtrip for `BuildSystem`. -/
theorem parseBuildSystem_toJ (x : BuildSystem) : parseBuildSystem x.toJ = .ok x := by
  simp [parseBuildSystem, BuildSystem.toJ, asFields_mkObj, reqField, List.lookup, bind, Except.bind, zString, zBool, zNum, zStringNullable_enc, zList_str, zList_buildAttempt]

/-- Schema roundtrip for `PackageManagement`. -/
theorem parsePackageManagement_toJ (x : PackageManagement) : parsePackageManagement x.toJ = .ok x := by
  simp [parsePackageManagement, PackageManagement.toJ, asFields_mkObj, reqField, List.lookup, bind, Except.bind, zString, zBool, zNum, zStringNullable_enc, zList_str]

/-- Schema roundtrip for `TestAttempt`. -/
theorem parseTestAttempt_toJ (x : TestAttempt) : parseTestAttempt x.toJ = .ok x := by
  simp [parseTestAttempt, TestAttempt.toJ, asFields_mkObj, reqField, List.lookup, bind, Except.bind, zString, zBool, zNum, zStringNullable_enc]

/-- Array roundtrip for `TestAttempt` lists. -/
theorem zList_testAttempt (l : List TestAttempt) :
    zList parseTestAttempt (Json.mkArr (l.map TestAttempt.toJ)) = .ok l :=
  zList_enc _ _ l parseTestAttempt_toJ

/-- Schema roundtrip for `TestingConfig`. -/
theorem parseTestingConfig_toJ (x : TestingConfig) : parseTestingConfig x.toJ = .ok x := by
  simp [parseTestingConfig, TestingConfig.toJ, asFields_mkObj, reqField, List.lookup, bind, Except.bind, zString, zBool, zNum, zStringNullable_enc, zList_str, zList_testAttempt]

/-- Schema roundtrip for `EnvironmentConfig`. -/
theorem parseEnvironmentConfig_toJ (x : EnvironmentConfig) : parseEnvironmentConfig x.toJ = .ok x := by
  simp [parseEnvironmentConfig, EnvironmentConfig.toJ, asFields_mkObj, reqField, List.lookup, bind, Except.bind, zString, zBool, zNum, zStringNullable_enc, zList_str]

/-- Schema roundtrip for `DeploymentConfig`. -/
theorem parseDeploymentConfig_toJ (x : DeploymentConfig) : parseDeploymentConfig x.toJ = .ok x := by
  simp [parseDeploymentConfig, DeploymentConfig.toJ, asFields_mkObj, reqField, List.lookup, bind, Except.bind, zString, zBool, zNum, zStringNullable_enc, zList_str, parseEnvironmentConfig_toJ]

/-- Schema roundtrip for `BuildAndDeployment`. -/
theorem parseBuildAndDeployment_toJ (x : BuildAndDeployment) : parseBuildAndDeployment x.toJ = .ok x := by
  simp [parseBuildAndDeployment, BuildAndDeployment.toJ, asFields_mkObj, reqField, List.lookup, bind, Except.bind, zString, zBool, zNum, zStringNullable_enc, parseBuildSystem_toJ, parsePackageManagement_toJ, parseTestingConfig_toJ, parseDeploymentConfig_toJ]

/-- Schema roundtrip for `StrengthsWeaknesses`. -/
theorem parseStrengthsWeaknesses_toJ (x : StrengthsWeaknesses) : parseStrengthsWeaknesses x.toJ = .ok x := by
  simp [parseStrengthsWeaknesses, StrengthsWeaknesses.toJ, asFields_mkObj, reqField, List.lookup, bind, Except.bind, zString, zBool, zNum, zStringNullable_enc, zList_str]

/-- Schema roundtrip for `Insights`. -/
theorem parseInsights_toJ (x : Insights) : parseInsights x.toJ = .ok x := by
  simp [parseInsights, Insights.toJ, asFields_mkObj, reqField, List.lookup, bind, Except.bind, zString, zBool, zNum, zStringNullable_enc, parseComplexityLevel_toStr, parseMaturityLevel_toStr, parseMaintainabilityLevel_toStr, zList_str, parseStrengthsWeaknesses_toJ]

/-- Schema roundtrip for `ConfidenceScores`. -/
theorem parseConfidenceScores_toJ (x : ConfidenceScores) : parseConfidenceScores x.toJ = .ok x := by
  simp [parseConfidenceScores, ConfidenceScores.toJ, asFields_mkObj, reqField, List.lookup, bind, Except.bind, zString, zBool, zNum, zStringNullable_enc]

/-- Schema roundtrip for `RepoContext`. -/
theorem parseRepoContext_toJ (x : RepoContext) : parseRepoContext x.toJ = .ok x := by
  simp [parseRepoContext, RepoContext.toJ, asFields_mkObj, reqField, List.lookup, bind, Except.bind, zString, zBool, zNum, zStringNullable_enc, parseRepositoryStructure_toJ, parseCodebaseAnalysis_toJ, parseBuildAndDeployment_toJ, parseInsights_toJ, parseConfidenceScores_toJ]

/-- A non-empty object is truthy. -/
theorem jsTruthy_mkObj_cons (kv : String × Json) (rest : List (String × Json)) :
    jsTruthy (Json.mkObj (kv :: rest)) = true := rfl

/-- Normalization of an already-canonical documentation object changes
nothing. -/
theorem normalizeDoc_toJ (d : DocumentationAnalysis) : normalizeDoc d.toJ = d.toJ := by
  obtain ⟨hr, ha, cc⟩ := d
  cases hr <;> cases ha <;> cases cc <;> rfl

/-- Normalization of an already-canonical package object changes
nothing. -/
theorem normalizePkg_toJ (p : PackageInfo) : normalizePkg p.toJ = p.toJ := by
  obtain ⟨pa, na, ty, la⟩ := p
  cases na <;> cases la <;> cases ty <;> rfl

/-- Mapping the package rebuild over canonical packages changes
nothing. -/
theorem map_normalizePkg (l : List PackageInfo) :
    (l.map PackageInfo.toJ).map normalizePkg = l.map PackageInfo.toJ := by
  rw [List.map_map]
  exact List.map_congr_left (fun x _ => normalizePkg_toJ x)

/-- The repository-type normalizer fixes every canonical spelling. -/
theorem normalizeRepoType_toStr (t : RepoTy) :
    normalizeRepoType (some (.str t.toStr)) = t.toStr := by
  cases t <;> rfl

/-- Composition form of the package-rebuild identity. -/
theorem map_normalizePkg_comp (l : List PackageInfo) :
    l.map (normalizePkg ∘ PackageInfo.toJ) = l.map PackageInfo.toJ :=
  List.map_congr_left (fun x _ => normalizePkg_toJ x)

/-- Normalization of an already-canonical repository shape changes
nothing. -/
theorem normalizeRepositoryShape_toJ (r : RepositoryStructure) :
    normalizeRepositoryShape r.toJ = r.toJ := by
  simp [normalizeRepositoryShape, RepositoryStructure.toJ, RepoStructure.toJ,
    asFields_mkObj, asList_mkArr, List.lookup, putField, normalizeRepoType_toStr,
    map_normalizePkg_comp, jsTruthy_mkObj_cons, List.map_map]

/-- Normalization is the identity on canonical repository-structure
encodings. -/
theorem normalizeAgent_repoStructure (r : RepositoryStructure) :
    normalizeAgentJsonForSchemas r.toJ = r.toJ := by
  have h1 : (RepositoryStructure.toJ r).getF "codeQuality" = none := by
    simp [RepositoryStructure.toJ, Json.getF, asFields_mkObj, List.lookup]
  have h2 : (RepositoryStructure.toJ r).getF "codebase" = none := by
    simp [RepositoryStructure.toJ, Json.getF, asFields_mkObj, List.lookup]
  have h3 : (RepositoryStructure.toJ r).getF "gitStatus" = some r.gitStatus.toJ := by
    simp [RepositoryStructure.toJ, Json.getF, asFields_mkObj, List.lookup]
  have h4 : (RepositoryStructure.toJ r).getF "structure" = some r.struct.toJ := by
    simp [RepositoryStructure.toJ, Json.getF, asFields_mkObj, List.lookup]
  have h5 : (RepositoryStructure.toJ r).getF "repository" = none := by
    simp [RepositoryStructure.toJ, Json.getF, asFields_mkObj, List.lookup]
  have h6 : jsTruthy (RepositoryStructure.toJ r) = true := by
    simp [RepositoryStructure.toJ, jsTruthy_mkObj_cons]
  have h7 : jsTruthy r.gitStatus.toJ = true := by
    simp [GitStatus.toJ, jsTruthy_mkObj_cons]
  have h8 : jsTruthy r.struct.toJ = true := by
    simp [RepoStructure.toJ, jsTruthy_mkObj_cons]
  simp only [normalizeAgentJsonForSchemas, h6, if_true, normDocGuard, h1,
    normDocNestedGuard, h2, normRepoShapeTop, h3, h4, jsTruthyOpt, h7, h8,
    Bool.and_self, normalizeRepositoryShape_toJ, normRepoShapeNested, h5]

/-- Normalization is the identity on canonical codebase-analysis
encodings. -/
theorem normalizeAgent_codebase (c : CodebaseAnalysis) :
    normalizeAgentJsonForSchemas c.toJ = c.toJ := by
  have h1 : (CodebaseAnalysis.toJ c).getF "codeQuality" = some c.codeQuality.toJ := by
    simp [CodebaseAnalysis.toJ, Json.getF, asFields_mkObj, List.lookup]
  have h2 : (CodeQualityAnalysis.toJ c.codeQuality).getF "documentation" =
      some c.codeQuality.documentation.toJ := by
    simp [CodeQualityAnalysis.toJ, Json.getF, asFields_mkObj, List.lookup]
  have h3 : jsTruthy c.codeQuality.toJ = true := by
    simp [CodeQualityAnalysis.toJ, jsTruthy_mkObj_cons]
  have h4 : jsTruthy c.codeQuality.documentation.toJ = true := by
    simp [DocumentationAnalysis.toJ, jsTruthy_mkObj_cons]
  have h5 : (CodeQualityAnalysis.toJ c.codeQuality).setF "documentation"
      c.codeQuality.documentation.toJ = c.codeQuality.toJ :=
    setF_self _ _ _ h2
  have h6 : (CodebaseAnalysis.toJ c).setF "codeQuality" c.codeQuality.toJ =
      CodebaseAnalysis.toJ c :=
    setF_self _ _ _ h1
  have hdg : normDocGuard (CodebaseAnalysis.toJ c) = CodebaseAnalysis.toJ c := by
    rw [normDocGuard.eq_def, h1]
    simp only [h3, if_true, h2, h4, normalizeDoc_toJ, h5, h6]
  have h7 : (CodebaseAnalysis.toJ c).getF "codebase" = none := by
    simp [CodebaseAnalysis.toJ, Json.getF, asFields_mkObj, List.lookup]
  have h8 : (CodebaseAnalysis.toJ c).getF "gitStatus" = none := by
    simp [CodebaseAnalysis.toJ, Json.getF, asFields_mkObj, List.lookup]
  have h9 : (CodebaseAnalysis.toJ c).getF "repository" = none := by
    simp [CodebaseAnalysis.toJ, Json.getF, asFields_mkObj, List.lookup]
  have h10 : jsTruthy (CodebaseAnalysis.toJ c) = true := by
    simp [CodebaseAnalysis.toJ, jsTruthy_mkObj_cons]
  simp only [normalizeAgentJsonForSchemas, h10, if_true, hdg, normDocNestedGuard, h7,
    normRepoShapeTop, h8, jsTruthyOpt, Bool.false_and, Bool.false_eq_true, if_false,
    normRepoShapeNested, h9]

/-- Normalization is the identity on canonical repo-context encodings. -/
theorem normalizeAgent_repoContext (x : RepoContext) :
    normalizeAgentJsonForSchemas x.toJ = x.toJ := by
  have h1 : (RepoContext.toJ x).getF "codeQuality" = none := by
    simp [RepoContext.toJ, Json.getF, asFields_mkObj, List.lookup]
  have h2 : (RepoContext.toJ x).getF "codebase" = some x.codebase.toJ := by
    simp [RepoContext.toJ, Json.getF, asFields_mkObj, List.lookup]
  have h3 : (CodebaseAnalysis.toJ x.codebase).getF "codeQuality" =
      some x.codebase.codeQuality.toJ := by
    simp [CodebaseAnalysis.toJ, Json.getF, asFields_mkObj, List.lookup]
  have h4 : (CodeQualityAnalysis.toJ x.codebase.codeQuality).getF "documentation" =
      some x.codebase.codeQuality.documentation.toJ := by
    simp [CodeQualityAnalysis.toJ, Json.getF, asFields_mkObj, List.lookup]
  have t2 : jsTruthy x.codebase.toJ = true := by
    simp [CodebaseAnalysis.toJ, jsTruthy_mkObj_cons]
  have t3 : jsTruthy x.codebase.codeQuality.toJ = true := by
    simp [CodeQualityAnalysis.toJ, jsTruthy_mkObj_cons]
  have t4 : jsTruthy x.codebase.codeQuality.documentation.toJ = true := by
    simp [DocumentationAnalysis.toJ, jsTruthy_mkObj_cons]
  have h5 : (CodeQualityAnalysis.toJ x.codebase.codeQuality).setF "documentation"
      x.codebase.codeQuality.documentation.toJ = x.codebase.codeQuality.toJ :=
    setF_self _ _ _ h4
  have h6 : (CodebaseAnalysis.toJ x.codebase).setF "codeQuality"
      x.codebase.codeQuality.toJ = CodebaseAnalysis.toJ x.codebase :=
    setF_self _ _ _ h3
  have h7 : (RepoContext.toJ x).setF "codebase" x.codebase.toJ = RepoContext.toJ x :=
    setF_self _ _ _ h2
  have hng : normDocNestedGuard (RepoContext.toJ x) = RepoContext.toJ x := by
    rw [normDocNestedGuard.eq_def, h2]
    simp only [t2, if_true, h3, t3, h4, t4, normalizeDoc_toJ, h5, h6, h7]
  have h8 : (RepoContext.toJ x).getF "gitStatus" = none := by
    simp [RepoContext.toJ, Json.getF, asFields_mkObj, List.lookup]
  have h9 : (RepoContext.toJ x).getF "repository" = some x.repository.toJ := by
    simp [RepoContext.toJ, Json.getF, asFields_mkObj, List.lookup]
  have t9 : jsTruthy x.repository.toJ = true := by
    simp [RepositoryStructure.toJ, jsTruthy_mkObj_cons]
  have h10 : (RepoContext.toJ x).setF "repository" x.repository.toJ = RepoContext.toJ x :=
    setF_self _ _ _ h9
  have t10 : jsTruthy (RepoContext.toJ x) = true := by
    simp [RepoContext.toJ, jsTruthy_mkObj_cons]
  simp only [normalizeAgentJsonForSchemas, t10, if_true, normDocGuard, h1, hng,
    normRepoShapeTop, h8, jsTruthyOpt, Bool.false_and, Bool.false_eq_true, if_false,
    normRepoShapeNested, h9, t9, normalizeRepositoryShape_toJ, h10]

set_option maxRecDepth 40000 in
/-- Counterexample to claim C7: a value that satisfies the
repository-structure schema but carries an extra key inside a package
is changed by normalization (the shape branch rebuilds each package
from only its four known fields), and re-validating the normalized
value does not give back the original value, so
validate(normalize(v)) == v fails for schema-satisfying v in general. -/
theorem normalize_roundtrip_claim_false :
    isOkE (parseRepositoryStructure extraKeyVal) = true ∧
    normalizeAgentJsonForSchemas extraKeyVal ≠ extraKeyVal ∧
    (parseRepositoryStructure (normalizeAgentJsonForSchemas extraKeyVal)).map
      RepositoryStructure.toJ ≠ .ok extraKeyVal := by
  refine ⟨by decide, by decide, by decide⟩

/-- Claim C7 amended: on the canonical encoding of any value of the
repository-structure, codebase-analysis, or repo-context schema,
normalization is the identity and re-validation recovers the value;
the round trip can fail when the schema-satisfying input carries
unknown keys, which zod strips and the package rebuild drops. -/
theorem normalize_validate_roundtrip :
    (∀ r : RepositoryStructure,
        normalizeAgentJsonForSchemas r.toJ = r.toJ ∧
        parseRepositoryStructure (normalizeAgentJsonForSchemas r.toJ) = .ok r) ∧
    (∀ c : CodebaseAnalysis,
        normalizeAgentJsonForSchemas c.toJ = c.toJ ∧
        parseCodebaseAnalysis (normalizeAgentJsonForSchemas c.toJ) = .ok c) ∧
    (∀ x : RepoContext,
        normalizeAgentJsonForSchemas x.toJ = x.toJ ∧
        parseRepoContext (normalizeAgentJsonForSchemas x.toJ) = .ok x) := by
  refine ⟨fun r => ⟨normalizeAgent_repoStructure r, ?_⟩,
    fun c => ⟨normalizeAgent_codebase c, ?_⟩,
    fun x => ⟨normalizeAgent_repoContext x, ?_⟩⟩
  · rw [normalizeAgent_repoStructure]; exact parseRepositoryStructure_toJ r
  · rw [normalizeAgent_codebase]; exact parseCodebaseAnalysis_toJ c
  · rw [normalizeAgent_repoContext]; exact parseRepoContext_toJ x

end AgentQA
